import Mathlib

/-!
Shallow embedding of the RaceLog data-integrity / cascade-consistency core
(src/server.js) and proofs about its cascade, update, upsert, bulk-delete
and import/export operations.

Modelling conventions:
- JavaScript values stored in record fields are modelled by `JVal`
  (null / string / number / the fl-fr-rl-rr sub-objects / string arrays).
  `undefined` request-body keys are modelled by `Option JVal` inputs
  (`none` = key absent).
- Each JSON collection file is a `List` of records inside `St`; a handler
  reads the lists it needs and returns the updated state, or an `ApiErr`.
  Every handler in the source returns its error response before the first
  `writeJsonFile` call, so an erroring operation leaves the state unchanged
  (`resultState`).
- `findIndex` + `splice(i, 1)` is modelled by `spliceFirst`,
  `findIndex` + in-place assignment by `updFirst` / `updFirst?`.
- `uuidv4()` is modelled by a fresh-name supply `fresh : Nat → String`
  with a counter threaded in source order.
- Filesystem-only artifacts (track image blobs, bcrypt) are outside the
  embedded state: the password check is an abstract `cmp` parameter and
  the export envelope's `trackImages` / `exportDate` entries are omitted
  (no claim concerns them).
-/

namespace RaceLog

/-- Model of a JavaScript value as stored in the JSON collections:
`null`, strings, numbers, the `fl/fr/rl/rr` corner sub-objects, and
string arrays (track corners, maintenance type lists). -/
inductive JVal where
  | null : JVal
  | str : String → JVal
  | num : Int → JVal
  | quad : Int → Int → Int → Int → JVal
  | strList : List String → JVal
deriving DecidableEq, Repr

/-- JavaScript truthiness of a stored value (objects and arrays are always
truthy, `""`, `0` and `null` are falsy). -/
def JVal.truthy : JVal → Bool
  | .null => false
  | .str s => !(s == "")
  | .num n => !(n == 0)
  | .quad _ _ _ _ => true
  | .strList _ => true

/-- Models the JavaScript `a || b` operator on stored values. -/
def jOr (a b : JVal) : JVal := if a.truthy then a else b

/-- Models `req.body.x || d` where the key may be absent (`none`). -/
def fieldOr (f : Option JVal) (d : JVal) : JVal := jOr (f.getD JVal.null) d

/-- Models `req.body.x ?? old`: an absent key or an explicit `null`
keeps the stored value; any other value overwrites it. -/
def fieldNN (f : Option JVal) (old : JVal) : JVal :=
  match f with
  | some JVal.null => old
  | some v => v
  | none => old

/-- Models the spread merge `{...old, ...body}` on one key: a present key
(including an explicit `null`) overwrites, an absent key is kept. -/
def fieldSpread (f : Option JVal) (old : JVal) : JVal := f.getD old

/-- Models `ids.includes(v)` / `idSet.has(v)` where `ids` holds id strings
and `v` is a stored value: strict equality only ever matches a string. -/
def jvalIn (v : JVal) (ids : List String) : Bool :=
  match v with
  | .str s => ids.contains s
  | _ => false

/-- User record (`users.json`). -/
structure User where
  id : String
  userName : String
  passwordHash : String
deriving DecidableEq, Repr

/-- Car record (`cars.json`). -/
structure Car where
  id : String
  userId : String
  name : JVal
  manufacturer : JVal
  series : JVal
deriving DecidableEq, Repr

/-- Track record (`tracks.json`). `circuitNotes` is absent on freshly
created tracks; stored-`undefined` is identified with `null`. -/
structure Track where
  id : String
  userId : String
  name : JVal
  location : JVal
  length : JVal
  imageUrl : JVal
  corners : JVal
  circuitNotes : JVal
deriving DecidableEq, Repr

/-- Setup record (`setups.json`). -/
structure Setup where
  id : String
  userId : String
  carId : JVal
  trackId : JVal
  name : JVal
  date : JVal
  toeFront : JVal
  toeRear : JVal
  camberFront : JVal
  camberRear : JVal
  casterFront : JVal
  cornerWeights : JVal
  totalWeight : JVal
  rideHeightFront : JVal
  rideHeightRear : JVal
  antiRollBarFront : JVal
  antiRollBarRear : JVal
  tyrePressures : JVal
  fuelQuantity : JVal
  tyreMake : JVal
  notes : JVal
deriving DecidableEq, Repr

/-- Session record (`sessions.json`). -/
structure Session where
  id : String
  userId : String
  carId : JVal
  trackId : JVal
  type : JVal
  name : JVal
  date : JVal
  trackConditions : JVal
  tyrePressures : JVal
  frontARB : JVal
  rearARB : JVal
  brakeBias : JVal
  setupComments : JVal
  focusAreas : JVal
  bestLaptime : JVal
  idealLaptime : JVal
  series : JVal
deriving DecidableEq, Repr

/-- CornerNote record (`corner-notes.json`); `sessionId` and `cornerName`
are stored exactly as supplied in the upsert body. -/
structure CornerNote where
  id : String
  userId : String
  sessionId : JVal
  cornerName : JVal
  entry : JVal
  apex : JVal
  exit : JVal
deriving DecidableEq, Repr

/-- TrackNote record (`track-notes.json`). -/
structure TrackNote where
  id : String
  userId : String
  carId : JVal
  trackId : JVal
  notes : JVal
deriving DecidableEq, Repr

/-- MaintenanceTask record (`maintenance.json`). -/
structure MaintenanceTask where
  id : String
  userId : String
  carId : JVal
  date : JVal
  type : JVal
  name : JVal
  description : JVal
  mileage : JVal
  partsUsed : JVal
  notes : JVal
deriving DecidableEq, Repr

/-- The whole persisted state: one list per JSON collection file. -/
structure St where
  users : List User
  cars : List Car
  tracks : List Track
  setups : List Setup
  sessions : List Session
  cornerNotes : List CornerNote
  trackNotes : List TrackNote
  maintenance : List MaintenanceTask
deriving DecidableEq, Repr

/-- Error kinds surfaced by the handlers (HTTP 404 / 400 / 401). -/
inductive ApiErr where
  | notFound : ApiErr
  | validation : ApiErr
  | auth : ApiErr
deriving DecidableEq, Repr

/-- State after running a handler: an erroring handler has performed no
writes (every error return in the source precedes the first write). -/
def resultState (st : St) : Except ApiErr St → St
  | .ok s => s
  | .error _ => st

instance {ε α : Type} [DecidableEq ε] [DecidableEq α] :
    DecidableEq (Except ε α) := fun x y =>
  match x, y with
  | .ok a, .ok b =>
    if h : a = b then .isTrue (by rw [h])
    else .isFalse (fun hc => h (by injection hc))
  | .error a, .error b =>
    if h : a = b then .isTrue (by rw [h])
    else .isFalse (fun hc => h (by injection hc))
  | .ok _, .error _ => .isFalse (fun hc => by injection hc)
  | .error _, .ok _ => .isFalse (fun hc => by injection hc)

/-- Models `arr.findIndex(p)` followed by `arr.splice(i, 1)`, with `none`
for the `index === -1` not-found branch. -/
def spliceFirst (p : α → Bool) : List α → Option (List α)
  | [] => none
  | a :: as => if p a then some as else (spliceFirst p as).map (a :: ·)

/-- Models `arr.findIndex(p)` followed by `arr[i] = f(arr[i])`, returning
the updated element and list; `none` for the not-found branch. -/
def updFirst? (p : α → Bool) (f : α → α) : List α → Option (α × List α)
  | [] => none
  | a :: as =>
    if p a then some (f a, f a :: as)
    else (updFirst? p f as).map (fun r => (r.1, a :: r.2))

/-- Total variant of `updFirst?`: replaces the first element matching `p`
and leaves the list unchanged when no element matches (used where the
source guarantees a match exists). -/
def updFirst (p : α → Bool) (f : α → α) : List α → List α
  | [] => []
  | a :: as => if p a then f a :: as else a :: updFirst p f as

/-- Partial request body of `PUT /api/cars/:id`; `none` = key absent.
The `id` and `userId` keys may be supplied but are never read. -/
structure CarInput where
  id : Option JVal := none
  userId : Option JVal := none
  name : Option JVal := none
  manufacturer : Option JVal := none
  series : Option JVal := none
deriving DecidableEq, Repr

/-- Partial request body of `PUT /api/setups/:id`; `none` = key absent. -/
structure SetupInput where
  id : Option JVal := none
  userId : Option JVal := none
  carId : Option JVal := none
  trackId : Option JVal := none
  name : Option JVal := none
  date : Option JVal := none
  toeFront : Option JVal := none
  toeRear : Option JVal := none
  camberFront : Option JVal := none
  camberRear : Option JVal := none
  casterFront : Option JVal := none
  cornerWeights : Option JVal := none
  totalWeight : Option JVal := none
  rideHeightFront : Option JVal := none
  rideHeightRear : Option JVal := none
  antiRollBarFront : Option JVal := none
  antiRollBarRear : Option JVal := none
  tyrePressures : Option JVal := none
  fuelQuantity : Option JVal := none
  tyreMake : Option JVal := none
  notes : Option JVal := none
deriving DecidableEq, Repr

/-- Partial request body of `PUT /api/sessions/:id`; `none` = key absent.
`id`, `userId`, `carId`, `trackId` may be supplied but are never read. -/
structure SessionInput where
  id : Option JVal := none
  userId : Option JVal := none
  carId : Option JVal := none
  trackId : Option JVal := none
  type : Option JVal := none
  name : Option JVal := none
  date : Option JVal := none
  trackConditions : Option JVal := none
  tyrePressures : Option JVal := none
  frontARB : Option JVal := none
  rearARB : Option JVal := none
  brakeBias : Option JVal := none
  setupComments : Option JVal := none
  focusAreas : Option JVal := none
  bestLaptime : Option JVal := none
  idealLaptime : Option JVal := none
  series : Option JVal := none
deriving DecidableEq, Repr

/-- Schema fields of a Setup other than `id` / `userId`, used to state
the update-merge semantics uniformly over all keys. -/
inductive SetupField where
  | carId | trackId | name | date | toeFront | toeRear
  | camberFront | camberRear | casterFront | cornerWeights | totalWeight
  | rideHeightFront | rideHeightRear | antiRollBarFront | antiRollBarRear
  | tyrePressures | fuelQuantity | tyreMake | notes
deriving DecidableEq, Repr

/-- Stored value of a Setup schema field. -/
def Setup.fieldVal (s : Setup) : SetupField → JVal
  | .carId => s.carId
  | .trackId => s.trackId
  | .name => s.name
  | .date => s.date
  | .toeFront => s.toeFront
  | .toeRear => s.toeRear
  | .camberFront => s.camberFront
  | .camberRear => s.camberRear
  | .casterFront => s.casterFront
  | .cornerWeights => s.cornerWeights
  | .totalWeight => s.totalWeight
  | .rideHeightFront => s.rideHeightFront
  | .rideHeightRear => s.rideHeightRear
  | .antiRollBarFront => s.antiRollBarFront
  | .antiRollBarRear => s.antiRollBarRear
  | .tyrePressures => s.tyrePressures
  | .fuelQuantity => s.fuelQuantity
  | .tyreMake => s.tyreMake
  | .notes => s.notes

/-- Request-body value of a Setup schema field (`none` = key absent). -/
def SetupInput.fieldVal (b : SetupInput) : SetupField → Option JVal
  | .carId => b.carId
  | .trackId => b.trackId
  | .name => b.name
  | .date => b.date
  | .toeFront => b.toeFront
  | .toeRear => b.toeRear
  | .camberFront => b.camberFront
  | .camberRear => b.camberRear
  | .casterFront => b.casterFront
  | .cornerWeights => b.cornerWeights
  | .totalWeight => b.totalWeight
  | .rideHeightFront => b.rideHeightFront
  | .rideHeightRear => b.rideHeightRear
  | .antiRollBarFront => b.antiRollBarFront
  | .antiRollBarRear => b.antiRollBarRear
  | .tyrePressures => b.tyrePressures
  | .fuelQuantity => b.fuelQuantity
  | .tyreMake => b.tyreMake
  | .notes => b.notes

/-- Updatable fields of a Car. -/
inductive CarField where
  | name | manufacturer | series
deriving DecidableEq, Repr

/-- Stored value of a Car field. -/
def Car.fieldVal (c : Car) : CarField → JVal
  | .name => c.name
  | .manufacturer => c.manufacturer
  | .series => c.series

/-- Request-body value of a Car field. -/
def CarInput.fieldVal (b : CarInput) : CarField → Option JVal
  | .name => b.name
  | .manufacturer => b.manufacturer
  | .series => b.series

/-- The thirteen fields named in the `PUT /api/sessions/:id` handler. -/
inductive SessionField where
  | type | name | date | trackConditions | tyrePressures
  | frontARB | rearARB | brakeBias | setupComments | focusAreas
  | bestLaptime | idealLaptime | series
deriving DecidableEq, Repr

/-- Stored value of an updatable Session field. -/
def Session.fieldVal (s : Session) : SessionField → JVal
  | .type => s.type
  | .name => s.name
  | .date => s.date
  | .trackConditions => s.trackConditions
  | .tyrePressures => s.tyrePressures
  | .frontARB => s.frontARB
  | .rearARB => s.rearARB
  | .brakeBias => s.brakeBias
  | .setupComments => s.setupComments
  | .focusAreas => s.focusAreas
  | .bestLaptime => s.bestLaptime
  | .idealLaptime => s.idealLaptime
  | .series => s.series

/-- Request-body value of an updatable Session field. -/
def SessionInput.fieldVal (b : SessionInput) : SessionField → Option JVal
  | .type => b.type
  | .name => b.name
  | .date => b.date
  | .trackConditions => b.trackConditions
  | .tyrePressures => b.tyrePressures
  | .frontARB => b.frontARB
  | .rearARB => b.rearARB
  | .brakeBias => b.brakeBias
  | .setupComments => b.setupComments
  | .focusAreas => b.focusAreas
  | .bestLaptime => b.bestLaptime
  | .idealLaptime => b.idealLaptime
  | .series => b.series

/-- Record merge of `PUT /api/cars/:id`: each of the three fields is set
with `req.body.x ?? old.x`; `id` and `userId` are carried over by the
spread of the stored record. -/
def updateCarRec (b : CarInput) (c : Car) : Car :=
  { c with
    name := fieldNN b.name c.name
    manufacturer := fieldNN b.manufacturer c.manufacturer
    series := fieldNN b.series c.series }

/-- Record merge of `PUT /api/setups/:id`:
`{...old, ...req.body, id: old.id, userId: old.userId}`. -/
def updateSetupRec (b : SetupInput) (s : Setup) : Setup :=
  { id := s.id
    userId := s.userId
    carId := fieldSpread b.carId s.carId
    trackId := fieldSpread b.trackId s.trackId
    name := fieldSpread b.name s.name
    date := fieldSpread b.date s.date
    toeFront := fieldSpread b.toeFront s.toeFront
    toeRear := fieldSpread b.toeRear s.toeRear
    camberFront := fieldSpread b.camberFront s.camberFront
    camberRear := fieldSpread b.camberRear s.camberRear
    casterFront := fieldSpread b.casterFront s.casterFront
    cornerWeights := fieldSpread b.cornerWeights s.cornerWeights
    totalWeight := fieldSpread b.totalWeight s.totalWeight
    rideHeightFront := fieldSpread b.rideHeightFront s.rideHeightFront
    rideHeightRear := fieldSpread b.rideHeightRear s.rideHeightRear
    antiRollBarFront := fieldSpread b.antiRollBarFront s.antiRollBarFront
    antiRollBarRear := fieldSpread b.antiRollBarRear s.antiRollBarRear
    tyrePressures := fieldSpread b.tyrePressures s.tyrePressures
    fuelQuantity := fieldSpread b.fuelQuantity s.fuelQuantity
    tyreMake := fieldSpread b.tyreMake s.tyreMake
    notes := fieldSpread b.notes s.notes }

/-- Record merge of `PUT /api/sessions/:id`: thirteen named fields are set
with `req.body.x ?? old.x`; `carId` and `trackId` are not in the list and
are carried over unchanged. -/
def updateSessionRec (b : SessionInput) (s : Session) : Session :=
  { s with
    type := fieldNN b.type s.type
    name := fieldNN b.name s.name
    date := fieldNN b.date s.date
    trackConditions := fieldNN b.trackConditions s.trackConditions
    tyrePressures := fieldNN b.tyrePressures s.tyrePressures
    frontARB := fieldNN b.frontARB s.frontARB
    rearARB := fieldNN b.rearARB s.rearARB
    brakeBias := fieldNN b.brakeBias s.brakeBias
    setupComments := fieldNN b.setupComments s.setupComments
    focusAreas := fieldNN b.focusAreas s.focusAreas
    bestLaptime := fieldNN b.bestLaptime s.bestLaptime
    idealLaptime := fieldNN b.idealLaptime s.idealLaptime
    series := fieldNN b.series s.series }

/-- `GET /api/cars/:id`. -/
def getCar (uid cid : String) (st : St) : Except ApiErr Car :=
  match st.cars.find? (fun c => c.id == cid && c.userId == uid) with
  | none => .error .notFound
  | some c => .ok c

/-- `PUT /api/cars/:id`: returns the updated record and state. -/
def updateCar (uid cid : String) (b : CarInput) (st : St) :
    Except ApiErr (Car × St) :=
  match updFirst? (fun c => c.id == cid && c.userId == uid)
      (updateCarRec b) st.cars with
  | none => .error .notFound
  | some (r, l) => .ok (r, { st with cars := l })

/-- `PUT /api/setups/:id`. -/
def updateSetup (uid sid : String) (b : SetupInput) (st : St) :
    Except ApiErr (Setup × St) :=
  match updFirst? (fun s => s.id == sid && s.userId == uid)
      (updateSetupRec b) st.setups with
  | none => .error .notFound
  | some (r, l) => .ok (r, { st with setups := l })

/-- `PUT /api/sessions/:id`. -/
def updateSession (uid sid : String) (b : SessionInput) (st : St) :
    Except ApiErr (Session × St) :=
  match updFirst? (fun s => s.id == sid && s.userId == uid)
      (updateSessionRec b) st.sessions with
  | none => .error .notFound
  | some (r, l) => .ok (r, { st with sessions := l })

/-- `DELETE /api/cars/:id`: splice the car, then hard-delete the caller's
Setups, TrackNotes and MaintenanceTasks whose `carId` matches. -/
def deleteCar (uid cid : String) (st : St) : Except ApiErr St :=
  match spliceFirst (fun c => c.id == cid && c.userId == uid) st.cars with
  | none => .error .notFound
  | some cars1 =>
    .ok { st with
      cars := cars1
      setups := st.setups.filter
        (fun s => !(s.carId == JVal.str cid && s.userId == uid))
      trackNotes := st.trackNotes.filter
        (fun tn => !(tn.carId == JVal.str cid && tn.userId == uid))
      maintenance := st.maintenance.filter
        (fun m => !(m.carId == JVal.str cid && m.userId == uid)) }

/-- `DELETE /api/tracks/:id`: splice the track, hard-delete the caller's
TrackNotes whose `trackId` matches, and map the caller's Setups whose
`trackId` matches to `trackId = null`. Sessions are not touched. -/
def deleteTrack (uid tid : String) (st : St) : Except ApiErr St :=
  match spliceFirst (fun t => t.id == tid && t.userId == uid) st.tracks with
  | none => .error .notFound
  | some tracks1 =>
    .ok { st with
      tracks := tracks1
      trackNotes := st.trackNotes.filter
        (fun tn => !(tn.trackId == JVal.str tid && tn.userId == uid))
      setups := st.setups.map
        (fun s =>
          if s.trackId == JVal.str tid && s.userId == uid then
            { s with trackId := JVal.null }
          else s) }

/-- `DELETE /api/setups/:id`. -/
def deleteSetup (uid sid : String) (st : St) : Except ApiErr St :=
  match spliceFirst (fun s => s.id == sid && s.userId == uid) st.setups with
  | none => .error .notFound
  | some setups1 => .ok { st with setups := setups1 }

/-- `DELETE /api/sessions/:id`: splice the session, then hard-delete the
caller's CornerNotes whose `sessionId` matches. -/
def deleteSession (uid sid : String) (st : St) : Except ApiErr St :=
  match spliceFirst (fun s => s.id == sid && s.userId == uid) st.sessions with
  | none => .error .notFound
  | some sessions1 =>
    .ok { st with
      sessions := sessions1
      cornerNotes := st.cornerNotes.filter
        (fun cn => !(cn.sessionId == JVal.str sid && cn.userId == uid)) }

/-- `DELETE /api/user`: password precondition, then hard-delete every
record of the caller in all seven collections and the user record itself.
`cmp` abstracts `bcrypt.compare(password, passwordHash)`. -/
def deleteAccount (uid password : String) (cmp : String → String → Bool)
    (st : St) : Except ApiErr St :=
  if password == "" then .error .validation
  else
    match st.users.find? (fun u => u.id == uid) with
    | none => .error .notFound
    | some u =>
      if cmp password u.passwordHash then
        .ok {
          users := st.users.filter (fun x => !(x.id == uid))
          cars := st.cars.filter (fun c => !(c.userId == uid))
          tracks := st.tracks.filter (fun t => !(t.userId == uid))
          setups := st.setups.filter (fun s => !(s.userId == uid))
          sessions := st.sessions.filter (fun s => !(s.userId == uid))
          cornerNotes := st.cornerNotes.filter (fun cn => !(cn.userId == uid))
          trackNotes := st.trackNotes.filter (fun tn => !(tn.userId == uid))
          maintenance := st.maintenance.filter (fun m => !(m.userId == uid)) }
      else .error .auth

/-- Outcome marker of the corner-note upsert (HTTP 200 vs 201). -/
inductive UpsertStatus where
  | created : UpsertStatus
  | updated : UpsertStatus
deriving DecidableEq, Repr

/-- Request body of `POST /api/corner-notes`; `none` = key absent. -/
structure CNBody where
  sessionId : Option JVal := none
  cornerName : Option JVal := none
  field : Option JVal := none
  value : Option JVal := none
deriving DecidableEq, Repr

/-- Whether the body's `field` value strictly equals one of the three
literals checked by `['entry', 'apex', 'exit'].includes(field)`. -/
def isNamedField (v : JVal) : Bool :=
  v == JVal.str "entry" || v == JVal.str "apex" || v == JVal.str "exit"

/-- Assignment `cornerNotes[i][field] = newVal` for a validated field. -/
def setNamedField (fv newVal : JVal) (cn : CornerNote) : CornerNote :=
  if fv == JVal.str "entry" then { cn with entry := newVal }
  else if fv == JVal.str "apex" then { cn with apex := newVal }
  else if fv == JVal.str "exit" then { cn with exit := newVal }
  else cn

/-- `POST /api/corner-notes` (upsert by `sessionId` + `cornerName`).
The handler reads and writes only the corner-notes collection, so its
whole signature is over `List CornerNote`: no Session lookup exists. -/
def upsertCornerNote (uid nid : String) (b : CNBody)
    (notes : List CornerNote) :
    Except ApiErr (UpsertStatus × CornerNote × List CornerNote) :=
  let sid := b.sessionId.getD JVal.null
  let cname := b.cornerName.getD JVal.null
  if !sid.truthy || !cname.truthy then .error .validation
  else
    let fv := b.field.getD JVal.null
    let upd := fun cn =>
      if fv.truthy && isNamedField fv then
        setNamedField fv (fieldOr b.value (JVal.str "")) cn
      else cn
    match updFirst?
        (fun cn => cn.sessionId == sid && cn.cornerName == cname &&
          cn.userId == uid) upd notes with
    | some (r, l) => .ok (.updated, r, l)
    | none =>
      let nn : CornerNote :=
        { id := nid
          userId := uid
          sessionId := sid
          cornerName := cname
          entry := if fv == JVal.str "entry" then fieldOr b.value (JVal.str "") else JVal.str ""
          apex := if fv == JVal.str "apex" then fieldOr b.value (JVal.str "") else JVal.str ""
          exit := if fv == JVal.str "exit" then fieldOr b.value (JVal.str "") else JVal.str "" }
      .ok (.created, nn, notes ++ [nn])

/-- State-level wrapper of the corner-note upsert: only the corner-notes
collection is consulted and replaced. -/
def upsertCornerNoteSt (uid nid : String) (b : CNBody) (st : St) :
    Except ApiErr (UpsertStatus × CornerNote × St) :=
  match upsertCornerNote uid nid b st.cornerNotes with
  | .error e => .error e
  | .ok (s, r, l) => .ok (s, r, { st with cornerNotes := l })

/-- Car pass of `POST /api/bulk-delete` (lines guarded by
`carIds.length > 0`): hard-delete the caller's Setups, Sessions (plus the
CornerNotes of those sessions), TrackNotes and MaintenanceTasks that
reference a selected owned car, then the cars themselves. The count
summary of the source is returned to the client only and is not
modelled. -/
def bulkCarPass (uid : String) (carIds : List String) (st : St) : St :=
  let userCarIds :=
    (st.cars.filter (fun c => c.userId == uid && carIds.contains c.id)).map
      (fun c => c.id)
  let delSessionIds :=
    (st.sessions.filter (fun s =>
      s.userId == uid && s.carId.truthy && jvalIn s.carId userCarIds)).map
      (fun s => s.id)
  { st with
    setups := st.setups.filter (fun s =>
      !(s.userId == uid && s.carId.truthy && jvalIn s.carId userCarIds))
    sessions := st.sessions.filter (fun s =>
      !(delSessionIds.contains s.id))
    cornerNotes := st.cornerNotes.filter (fun cn =>
      !(cn.userId == uid && jvalIn cn.sessionId delSessionIds))
    trackNotes := st.trackNotes.filter (fun tn =>
      !(tn.userId == uid && tn.carId.truthy && jvalIn tn.carId userCarIds))
    maintenance := st.maintenance.filter (fun m =>
      !(m.userId == uid && m.carId.truthy && jvalIn m.carId userCarIds))
    cars := st.cars.filter (fun c =>
      !(c.userId == uid && userCarIds.contains c.id)) }

/-- Track pass of `POST /api/bulk-delete` (lines guarded by
`trackIds.length > 0`). -/
def bulkTrackPass (uid : String) (trackIds : List String) (st : St) : St :=
  let userTrackIds :=
    (st.tracks.filter (fun t => t.userId == uid && trackIds.contains t.id)).map
      (fun t => t.id)
  let delSessionIds :=
    (st.sessions.filter (fun s =>
      s.userId == uid && s.trackId.truthy && jvalIn s.trackId userTrackIds)).map
      (fun s => s.id)
  { st with
    setups := st.setups.filter (fun s =>
      !(s.userId == uid && s.trackId.truthy && jvalIn s.trackId userTrackIds))
    sessions := st.sessions.filter (fun s =>
      !(delSessionIds.contains s.id))
    cornerNotes := st.cornerNotes.filter (fun cn =>
      !(cn.userId == uid && jvalIn cn.sessionId delSessionIds))
    trackNotes := st.trackNotes.filter (fun tn =>
      !(tn.userId == uid && tn.trackId.truthy && jvalIn tn.trackId userTrackIds))
    tracks := st.tracks.filter (fun t =>
      !(t.userId == uid && userTrackIds.contains t.id)) }

/-- Request-level orchestration of `POST /api/bulk-delete`: validation,
then the car pass, then the track pass on the car pass's output. -/
def bulkDelete (uid : String) (carIds trackIds : List String) (st : St) :
    Except ApiErr St :=
  if carIds.isEmpty && trackIds.isEmpty then .error .validation
  else
    let st1 := if carIds.isEmpty then st else bulkCarPass uid carIds st
    let st2 := if trackIds.isEmpty then st1 else bulkTrackPass uid trackIds st1
    .ok st2

/-- Bulk delete as the specification words it (section 4.6 against the
section 4.3 single-entity cascades): apply the Car-deletion cascade to
each selected Car and the Track-deletion cascade to each selected Track,
skipping ids that do not resolve. Used as the comparison point for the
refinement claim about `bulkDelete`. -/
def specBulkDelete (uid : String) (carIds trackIds : List String)
    (st : St) : St :=
  let st1 := carIds.foldl (fun s cid => resultState s (deleteCar uid cid s)) st
  trackIds.foldl (fun s tid => resultState s (deleteTrack uid tid s)) st1

/-- Export envelope (`POST /api/export` response, the `data` part of
an import request). `exportDate` (wall clock) and `trackImages` (filesystem
blobs) are outside the embedded state and omitted. Optional categories
are `none` when the corresponding include flag was off. -/
structure Envelope where
  version : Nat := 1
  appName : String := "RaceLog"
  cars : List Car := []
  tracks : List Track := []
  setups : Option (List Setup) := none
  sessions : Option (List Session) := none
  cornerNotes : Option (List CornerNote) := none
  trackNotes : Option (List TrackNote) := none
  maintenance : Option (List MaintenanceTask) := none
deriving DecidableEq, Repr

/-- `POST /api/export`: selected Cars/Tracks verbatim; per optional flag,
the caller's dependents whose `carId` is a selected car id or whose
`trackId` is a selected track id; CornerNotes of exported Sessions;
Maintenance only by `carId`. -/
def exportOp (uid : String) (carIds trackIds : List String)
    (incSetups incSessions incMaintenance incTrackNotes : Bool)
    (st : St) : Except ApiErr Envelope :=
  if carIds.isEmpty && trackIds.isEmpty then .error .validation
  else
    let userCars := st.cars.filter (fun c => c.userId == uid)
    let userTracks := st.tracks.filter (fun t => t.userId == uid)
    let expSessions :=
      (st.sessions.filter (fun s => s.userId == uid)).filter (fun s =>
        (s.carId.truthy && jvalIn s.carId carIds) ||
        (s.trackId.truthy && jvalIn s.trackId trackIds))
    let sessionIds := expSessions.map (fun s => s.id)
    .ok {
      version := 1
      appName := "RaceLog"
      cars := userCars.filter (fun c => carIds.contains c.id)
      tracks := userTracks.filter (fun t => trackIds.contains t.id)
      setups :=
        if incSetups then
          some ((st.setups.filter (fun s => s.userId == uid)).filter (fun s =>
            (s.carId.truthy && jvalIn s.carId carIds) ||
            (s.trackId.truthy && jvalIn s.trackId trackIds)))
        else none
      sessions := if incSessions then some expSessions else none
      cornerNotes :=
        if incSessions then
          some ((st.cornerNotes.filter (fun cn => cn.userId == uid)).filter
            (fun cn => jvalIn cn.sessionId sessionIds))
        else none
      trackNotes :=
        if incTrackNotes then
          some ((st.trackNotes.filter (fun tn => tn.userId == uid)).filter
            (fun tn =>
              (tn.carId.truthy && jvalIn tn.carId carIds) ||
              (tn.trackId.truthy && jvalIn tn.trackId trackIds)))
        else none
      maintenance :=
        if incMaintenance then
          some ((st.maintenance.filter (fun m => m.userId == uid)).filter
            (fun m => m.carId.truthy && jvalIn m.carId carIds))
        else none }

/-- Import mode; the source rejects any other string before any write. -/
inductive Mode where
  | overwrite : Mode
  | preserve : Mode
deriving DecidableEq, Repr

/-- Old-id to new-id mapping built during import. A later assignment to
the same key is modelled by prepending, with first-match lookup. -/
abbrev IdMap := List (String × String)

/-- Lookup `map[k]`, `none` when the key was never assigned. -/
def mapLookup (m : IdMap) (k : String) : Option String :=
  (m.find? (fun p => p.1 == k)).map (fun p => p.2)

/-- `map[v] || v` on a stored value: only a string value can hit a key
(object keys are id strings; a looked-up empty string would be falsy). -/
def mapOrKeepRaw (m : IdMap) (v : JVal) : JVal :=
  match v with
  | JVal.str s =>
    match mapLookup m s with
    | some nid => if nid == "" then v else JVal.str nid
    | none => v
  | _ => v

/-- `if (x.fk) x.fk = map[x.fk] || x.fk`: guarded remap of a foreign key. -/
def mapOrKeep (m : IdMap) (v : JVal) : JVal :=
  if v.truthy then mapOrKeepRaw m v else v

/-- Fuel-bounded worker for `mapValues`; the fuel is the map's length,
which bounds the recursion depth (each step drops at least the head). -/
def mapValuesAux : Nat → IdMap → List String
  | 0, _ => []
  | _ + 1, [] => []
  | fuel + 1, (k, v) :: rest =>
    v :: mapValuesAux fuel (rest.filter (fun p => p.1 != k))

/-- Live values of the id map (`Object.values`): one value per distinct
key, the most recent assignment winning. -/
def mapValues (m : IdMap) : List String := mapValuesAux m.length m

/-- Accumulator of the per-entity import loops: the evolving stored list,
the old-to-new id map, the ids skipped under preserve mode, and the
fresh-id counter. -/
structure ImpAcc (α : Type) where
  recs : List α
  idMap : IdMap
  skipped : List String
  k : Nat
deriving Repr

/-- Car pass of `POST /api/import`: match by (name, manufacturer, series)
against the caller's cars snapshot; matched + overwrite updates the three
fields in place; matched + preserve marks the old id skipped; unmatched
pushes a fresh-id copy. -/
def importCarsLoop (uid : String) (fresh : Nat → String) (mode : Mode)
    (userCars : List Car) : List Car → ImpAcc Car → ImpAcc Car
  | [], acc => acc
  | ic :: rest, acc =>
    match userCars.find? (fun c =>
        c.name == ic.name && c.manufacturer == ic.manufacturer &&
        c.series == ic.series) with
    | some mc =>
      match mode with
      | .overwrite =>
        importCarsLoop uid fresh mode userCars rest
          { recs := updFirst (fun c => c.id == mc.id)
              (fun c => { c with
                name := ic.name
                manufacturer := ic.manufacturer
                series := ic.series })
              acc.recs
            idMap := (ic.id, mc.id) :: acc.idMap
            skipped := acc.skipped
            k := acc.k }
      | .preserve =>
        importCarsLoop uid fresh mode userCars rest
          { recs := acc.recs
            idMap := (ic.id, mc.id) :: acc.idMap
            skipped := ic.id :: acc.skipped
            k := acc.k }
    | none =>
      let nid := fresh acc.k
      importCarsLoop uid fresh mode userCars rest
        { recs := acc.recs ++
            [{ id := nid
               userId := uid
               name := jOr ic.name (JVal.str "")
               manufacturer := jOr ic.manufacturer (JVal.str "")
               series := jOr ic.series (JVal.str "") }]
          idMap := (ic.id, nid) :: acc.idMap
          skipped := acc.skipped
          k := acc.k + 1 }

/-- `path.extname`: the suffix of the basename from its last dot, empty
for dotless or leading-dot-only basenames. -/
def extname (p : String) : String :=
  let base := (p.splitOn "/").getLastD ""
  let parts := base.splitOn "."
  if parts.length ≤ 1 then ""
  else if base.startsWith "." && parts.length == 2 then ""
  else "." ++ parts.getLastD ""

/-- Track pass of `POST /api/import`: match by (name, location); matched +
overwrite updates name, location, length, corners, circuitNotes and
imageUrl in place; matched + preserve marks the old id skipped; unmatched
pushes a fresh-id copy with a local `imageUrl` rewritten to the new id. -/
def importTracksLoop (uid : String) (fresh : Nat → String) (mode : Mode)
    (userTracks : List Track) : List Track → ImpAcc Track → ImpAcc Track
  | [], acc => acc
  | it :: rest, acc =>
    match userTracks.find? (fun t =>
        t.name == it.name && t.location == it.location) with
    | some mt =>
      match mode with
      | .overwrite =>
        importTracksLoop uid fresh mode userTracks rest
          { recs := updFirst (fun t => t.id == mt.id)
              (fun t => { t with
                name := it.name
                location := it.location
                length := it.length
                corners := it.corners
                circuitNotes := it.circuitNotes
                imageUrl := it.imageUrl })
              acc.recs
            idMap := (it.id, mt.id) :: acc.idMap
            skipped := acc.skipped
            k := acc.k }
      | .preserve =>
        importTracksLoop uid fresh mode userTracks rest
          { recs := acc.recs
            idMap := (it.id, mt.id) :: acc.idMap
            skipped := it.id :: acc.skipped
            k := acc.k }
    | none =>
      let nid := fresh acc.k
      let img :=
        match jOr it.imageUrl (JVal.str "") with
        | JVal.str s =>
          if s.startsWith "/images/tracks/" then
            JVal.str ("/images/tracks/" ++ nid ++ extname s)
          else JVal.str s
        | v => v
      importTracksLoop uid fresh mode userTracks rest
        { recs := acc.recs ++
            [{ id := nid
               userId := uid
               name := jOr it.name (JVal.str "")
               location := jOr it.location (JVal.str "")
               length := jOr it.length (JVal.str "")
               imageUrl := img
               corners := jOr it.corners (JVal.strList [])
               circuitNotes := jOr it.circuitNotes (JVal.str "") }]
          idMap := (it.id, nid) :: acc.idMap
          skipped := acc.skipped
          k := acc.k + 1 }

/-- Fresh-id insertion of imported setups (`{...setup, id, userId}` with
guarded foreign-key remap), returning the list and the next counter. -/
def insertSetups (uid : String) (fresh : Nat → String)
    (carMap trackMap : IdMap) : List Setup → Nat → List Setup × Nat
  | [], k => ([], k)
  | s :: rest, k =>
    let ns := { s with
      id := fresh k
      userId := uid
      carId := mapOrKeep carMap s.carId
      trackId := mapOrKeep trackMap s.trackId }
    let r := insertSetups uid fresh carMap trackMap rest (k + 1)
    (ns :: r.1, r.2)

/-- Preserve-mode insertion of imported setups: a setup whose `carId` is a
skipped car id or whose `trackId` is a skipped track id is dropped. -/
def insertSetupsPres (uid : String) (fresh : Nat → String)
    (carMap trackMap : IdMap) (skC skT : List String) :
    List Setup → Nat → List Setup × Nat
  | [], k => ([], k)
  | s :: rest, k =>
    if (s.carId.truthy && jvalIn s.carId skC) ||
        (s.trackId.truthy && jvalIn s.trackId skT) then
      insertSetupsPres uid fresh carMap trackMap skC skT rest k
    else
      let ns := { s with
        id := fresh k
        userId := uid
        carId := mapOrKeep carMap s.carId
        trackId := mapOrKeep trackMap s.trackId }
      let r := insertSetupsPres uid fresh carMap trackMap skC skT rest (k + 1)
      (ns :: r.1, r.2)

/-- Overwrite-mode setups section: purge the caller's setups tied to the
newly mapped car/track ids, then insert every imported setup fresh. -/
def importSetupsOver (uid : String) (fresh : Nat → String) (k : Nat)
    (carMap trackMap : IdMap) (envS : List Setup) (setups0 : List Setup) :
    List Setup × Nat :=
  let newCarIds := mapValues carMap
  let newTrackIds := mapValues trackMap
  let toRemove :=
    (setups0.filter (fun s =>
      s.userId == uid &&
      ((s.carId.truthy && jvalIn s.carId newCarIds) ||
       (s.trackId.truthy && jvalIn s.trackId newTrackIds)))).map (fun s => s.id)
  let filtered := setups0.filter (fun s => !(toRemove.contains s.id))
  let r := insertSetups uid fresh carMap trackMap envS k
  (filtered ++ r.1, r.2)

/-- Fresh-id insertion of imported sessions, also building the session id
map (later assignments shadow earlier ones via first-match lookup). -/
def insertSessions (uid : String) (fresh : Nat → String)
    (carMap trackMap : IdMap) : List Session → Nat → List Session × IdMap × Nat
  | [], k => ([], [], k)
  | s :: rest, k =>
    let nid := fresh k
    let ns := { s with
      id := nid
      userId := uid
      carId := mapOrKeep carMap s.carId
      trackId := mapOrKeep trackMap s.trackId }
    let r := insertSessions uid fresh carMap trackMap rest (k + 1)
    (ns :: r.1, r.2.1 ++ [(s.id, nid)], r.2.2)

/-- Preserve-mode insertion of imported sessions with skip conditions. -/
def insertSessionsPres (uid : String) (fresh : Nat → String)
    (carMap trackMap : IdMap) (skC skT : List String) :
    List Session → Nat → List Session × IdMap × Nat
  | [], k => ([], [], k)
  | s :: rest, k =>
    if (s.carId.truthy && jvalIn s.carId skC) ||
        (s.trackId.truthy && jvalIn s.trackId skT) then
      insertSessionsPres uid fresh carMap trackMap skC skT rest k
    else
      let nid := fresh k
      let ns := { s with
        id := nid
        userId := uid
        carId := mapOrKeep carMap s.carId
        trackId := mapOrKeep trackMap s.trackId }
      let r := insertSessionsPres uid fresh carMap trackMap skC skT rest (k + 1)
      (ns :: r.1, r.2.1 ++ [(s.id, nid)], r.2.2)

/-- Overwrite-mode corner-note insertion: every envelope corner note is
inserted with its `sessionId` remapped when truthy and mapped. -/
def insertCornerNotesOver (uid : String) (fresh : Nat → String)
    (sMap : IdMap) : List CornerNote → Nat → List CornerNote × Nat
  | [], k => ([], k)
  | cn :: rest, k =>
    let ncn := { cn with
      id := fresh k
      userId := uid
      sessionId := mapOrKeep sMap cn.sessionId }
    let r := insertCornerNotesOver uid fresh sMap rest (k + 1)
    (ncn :: r.1, r.2)

/-- Preserve-mode corner-note insertion: a note whose `sessionId` has no
truthy image in the session id map is dropped; otherwise it is inserted
with `sessionId = map[sessionId] || sessionId`. -/
def insertCornerNotesPres (uid : String) (fresh : Nat → String)
    (sMap : IdMap) : List CornerNote → Nat → List CornerNote × Nat
  | [], k => ([], k)
  | cn :: rest, k =>
    let hit :=
      match cn.sessionId with
      | JVal.str s =>
        match mapLookup sMap s with
        | some nid => !(nid == "")
        | none => false
      | _ => false
    if hit then
      let ncn := { cn with
        id := fresh k
        userId := uid
        sessionId := mapOrKeepRaw sMap cn.sessionId }
      let r := insertCornerNotesPres uid fresh sMap rest (k + 1)
      (ncn :: r.1, r.2)
    else insertCornerNotesPres uid fresh sMap rest k

/-- Fresh-id insertion of imported track notes. -/
def insertTrackNotes (uid : String) (fresh : Nat → String)
    (carMap trackMap : IdMap) : List TrackNote → Nat → List TrackNote × Nat
  | [], k => ([], k)
  | tn :: rest, k =>
    let ntn := { tn with
      id := fresh k
      userId := uid
      carId := mapOrKeep carMap tn.carId
      trackId := mapOrKeep trackMap tn.trackId }
    let r := insertTrackNotes uid fresh carMap trackMap rest (k + 1)
    (ntn :: r.1, r.2)

/-- Preserve-mode insertion of imported track notes with skip conditions. -/
def insertTrackNotesPres (uid : String) (fresh : Nat → String)
    (carMap trackMap : IdMap) (skC skT : List String) :
    List TrackNote → Nat → List TrackNote × Nat
  | [], k => ([], k)
  | tn :: rest, k =>
    if (tn.carId.truthy && jvalIn tn.carId skC) ||
        (tn.trackId.truthy && jvalIn tn.trackId skT) then
      insertTrackNotesPres uid fresh carMap trackMap skC skT rest k
    else
      let ntn := { tn with
        id := fresh k
        userId := uid
        carId := mapOrKeep carMap tn.carId
        trackId := mapOrKeep trackMap tn.trackId }
      let r := insertTrackNotesPres uid fresh carMap trackMap skC skT rest (k + 1)
      (ntn :: r.1, r.2)

/-- Fresh-id insertion of imported maintenance tasks. -/
def insertMaint (uid : String) (fresh : Nat → String) (carMap : IdMap) :
    List MaintenanceTask → Nat → List MaintenanceTask × Nat
  | [], k => ([], k)
  | m :: rest, k =>
    let nm := { m with
      id := fresh k
      userId := uid
      carId := mapOrKeep carMap m.carId }
    let r := insertMaint uid fresh carMap rest (k + 1)
    (nm :: r.1, r.2)

/-- Preserve-mode insertion of imported maintenance tasks. -/
def insertMaintPres (uid : String) (fresh : Nat → String) (carMap : IdMap)
    (skC : List String) : List MaintenanceTask → Nat → List MaintenanceTask × Nat
  | [], k => ([], k)
  | m :: rest, k =>
    if m.carId.truthy && jvalIn m.carId skC then
      insertMaintPres uid fresh carMap skC rest k
    else
      let nm := { m with
        id := fresh k
        userId := uid
        carId := mapOrKeep carMap m.carId }
      let r := insertMaintPres uid fresh carMap skC rest (k + 1)
      (nm :: r.1, r.2)

/-- Car section of `POST /api/import`: runs the car loop only when the
envelope car list is present and nonempty. -/
def importCarsSection (uid : String) (fresh : Nat → String) (mode : Mode)
    (envCars : List Car) (st : St) : ImpAcc Car :=
  if envCars.isEmpty then ImpAcc.mk st.cars [] [] 0
  else
    importCarsLoop uid fresh mode (st.cars.filter (fun c => c.userId == uid))
      envCars (ImpAcc.mk st.cars [] [] 0)

/-- Track section of `POST /api/import`. -/
def importTracksSection (uid : String) (fresh : Nat → String) (mode : Mode)
    (envTracks : List Track) (st : St) (k : Nat) : ImpAcc Track :=
  if envTracks.isEmpty then ImpAcc.mk st.tracks [] [] k
  else
    importTracksLoop uid fresh mode
      (st.tracks.filter (fun t => t.userId == uid))
      envTracks (ImpAcc.mk st.tracks [] [] k)

/-- `POST /api/import`: envelope validation, then the car, track, setup,
session + corner-note, track-note and maintenance sections in source
order. Sections run only when the envelope list is present and nonempty.
Track image blobs are filesystem artifacts and are not part of `St`.
The returned count summary is not modelled. -/
def importOp (uid : String) (fresh : Nat → String) (mode : Mode)
    (env : Envelope) (st : St) : Except ApiErr St :=
  if env.version == 0 then .error .validation
  else
    let accC : ImpAcc Car := importCarsSection uid fresh mode env.cars st
    let accT : ImpAcc Track :=
      importTracksSection uid fresh mode env.tracks st accC.k
    let setupsRes : List Setup × Nat :=
      match env.setups with
      | some l =>
        if l.isEmpty then (st.setups, accT.k)
        else
          match mode with
          | .overwrite =>
            importSetupsOver uid fresh accT.k accC.idMap accT.idMap l st.setups
          | .preserve =>
            let r := insertSetupsPres uid fresh accC.idMap accT.idMap
              accC.skipped accT.skipped l accT.k
            (st.setups ++ r.1, r.2)
      | none => (st.setups, accT.k)
    let sessionsRes : List Session × List CornerNote × Nat :=
      match env.sessions with
      | some l =>
        if l.isEmpty then (st.sessions, st.cornerNotes, setupsRes.2)
        else
          match mode with
          | .overwrite =>
            let newCarIds := mapValues accC.idMap
            let newTrackIds := mapValues accT.idMap
            let toRemove :=
              (st.sessions.filter (fun s =>
                s.userId == uid &&
                ((s.carId.truthy && jvalIn s.carId newCarIds) ||
                 (s.trackId.truthy && jvalIn s.trackId newTrackIds)))).map
                (fun s => s.id)
            let filteredS := st.sessions.filter (fun s => !(toRemove.contains s.id))
            let cns0 := st.cornerNotes.filter (fun cn =>
              !(jvalIn cn.sessionId toRemove) || cn.userId != uid)
            let rS := insertSessions uid fresh accC.idMap accT.idMap l setupsRes.2
            let cnRes :=
              match env.cornerNotes with
              | some cl =>
                if cl.isEmpty then (([] : List CornerNote), rS.2.2)
                else insertCornerNotesOver uid fresh rS.2.1 cl rS.2.2
              | none => ([], rS.2.2)
            (filteredS ++ rS.1, cns0 ++ cnRes.1, cnRes.2)
          | .preserve =>
            let rS := insertSessionsPres uid fresh accC.idMap accT.idMap
              accC.skipped accT.skipped l setupsRes.2
            let cnRes :=
              match env.cornerNotes with
              | some cl =>
                if cl.isEmpty then (([] : List CornerNote), rS.2.2)
                else insertCornerNotesPres uid fresh rS.2.1 cl rS.2.2
              | none => ([], rS.2.2)
            (st.sessions ++ rS.1, st.cornerNotes ++ cnRes.1, cnRes.2)
      | none => (st.sessions, st.cornerNotes, setupsRes.2)
    let trackNotesRes : List TrackNote × Nat :=
      match env.trackNotes with
      | some l =>
        if l.isEmpty then (st.trackNotes, sessionsRes.2.2)
        else
          match mode with
          | .overwrite =>
            let newCarIds := mapValues accC.idMap
            let newTrackIds := mapValues accT.idMap
            let toRemove :=
              (st.trackNotes.filter (fun tn =>
                tn.userId == uid &&
                ((tn.carId.truthy && jvalIn tn.carId newCarIds) ||
                 (tn.trackId.truthy && jvalIn tn.trackId newTrackIds)))).map
                (fun tn => tn.id)
            let filteredT := st.trackNotes.filter (fun tn => !(toRemove.contains tn.id))
            let r := insertTrackNotes uid fresh accC.idMap accT.idMap l sessionsRes.2.2
            (filteredT ++ r.1, r.2)
          | .preserve =>
            let r := insertTrackNotesPres uid fresh accC.idMap accT.idMap
              accC.skipped accT.skipped l sessionsRes.2.2
            (st.trackNotes ++ r.1, r.2)
      | none => (st.trackNotes, sessionsRes.2.2)
    let maintRes : List MaintenanceTask × Nat :=
      match env.maintenance with
      | some l =>
        if l.isEmpty then (st.maintenance, trackNotesRes.2)
        else
          match mode with
          | .overwrite =>
            let newCarIds := mapValues accC.idMap
            let toRemove :=
              (st.maintenance.filter (fun m =>
                m.userId == uid && m.carId.truthy &&
                jvalIn m.carId newCarIds)).map (fun m => m.id)
            let filteredM := st.maintenance.filter (fun m => !(toRemove.contains m.id))
            let r := insertMaint uid fresh accC.idMap l trackNotesRes.2
            (filteredM ++ r.1, r.2)
          | .preserve =>
            let r := insertMaintPres uid fresh accC.idMap accC.skipped l trackNotesRes.2
            (st.maintenance ++ r.1, r.2)
      | none => (st.maintenance, trackNotesRes.2)
    .ok { st with
      cars := accC.recs
      tracks := accT.recs
      setups := setupsRes.1
      sessions := sessionsRes.1
      cornerNotes := sessionsRes.2.1
      trackNotes := trackNotesRes.1
      maintenance := maintRes.1 }

/-! Helper lemmas about the list combinators of the embedding. -/

theorem jvalIn_nil (v : JVal) : jvalIn v [] = false := by
  cases v <;> simp [jvalIn]

theorem spliceFirst_eq_none {p : α → Bool} {l : List α} :
    spliceFirst p l = none ↔ ∀ a ∈ l, p a = false := by
  induction l with
  | nil => simp [spliceFirst]
  | cons a as ih =>
    by_cases h : p a
    · simp [spliceFirst, h]
    · simp [spliceFirst, h, ih]

theorem spliceFirst_filter {p q : α → Bool} {l l2 : List α}
    (hpq : ∀ a, p a = true → q a = false)
    (h : spliceFirst p l = some l2) :
    l2.filter q = l.filter q := by
  induction l generalizing l2 with
  | nil => simp [spliceFirst] at h
  | cons a as ih =>
    by_cases hp : p a
    · simp [spliceFirst, hp] at h
      subst h
      simp [List.filter_cons, hpq a hp]
    · simp [spliceFirst, hp] at h
      obtain ⟨l3, h3, rfl⟩ := h
      simp [List.filter_cons, ih h3]

theorem updFirst_eq_self {p : α → Bool} {f : α → α} {l : List α}
    (h : ∀ a ∈ l, p a = true → f a = a) : updFirst p f l = l := by
  induction l with
  | nil => simp [updFirst]
  | cons a as ih =>
    by_cases hp : p a
    · simp [updFirst, hp, h a (by simp) hp]
    · simp [updFirst, hp]
      exact ih (fun x hx hpx => h x (by simp [hx]) hpx)

theorem updFirst?_eq_none {p : α → Bool} {f : α → α} {l : List α} :
    updFirst? p f l = none ↔ ∀ a ∈ l, p a = false := by
  induction l with
  | nil => simp [updFirst?]
  | cons a as ih =>
    by_cases h : p a
    · simp [updFirst?, h]
    · simp [updFirst?, h, ih]

theorem updFirst?_append {p : α → Bool} {f : α → α}
    (l1 : List α) (a : α) (l2 : List α)
    (h1 : ∀ x ∈ l1, p x = false) (ha : p a = true) :
    updFirst? p f (l1 ++ a :: l2) = some (f a, l1 ++ f a :: l2) := by
  induction l1 with
  | nil => simp [updFirst?, ha]
  | cons x xs ih =>
    have hx : p x = false := h1 x (by simp)
    have ihr := ih (fun y hy => h1 y (by simp [hy]))
    simp [updFirst?, hx, List.append_eq, ihr]

theorem updFirst?_of_find? {p : α → Bool} {f : α → α} {l : List α} {a : α}
    (h : l.find? p = some a) (hf : ∀ x, f x = x) :
    updFirst? p f l = some (a, l) := by
  induction l with
  | nil => simp at h
  | cons x xs ih =>
    by_cases hp : p x
    · rw [List.find?_cons_of_pos _ hp] at h
      injection h with h
      subst h
      simp [updFirst?, hp, hf]
    · rw [List.find?_cons_of_neg _ hp] at h
      simp [updFirst?, hp, ih h]

theorem filter_sub_eq {l : List α} {keep q : α → Bool}
    (h : ∀ a, q a = true → keep a = true) :
    (l.filter keep).filter q = l.filter q := by
  induction l with
  | nil => simp
  | cons a as ih =>
    by_cases hq : q a
    · have hk : keep a = true := h a hq
      simp [List.filter_cons, hq, hk, ih]
    · by_cases hk : keep a <;> simp [List.filter_cons, hq, hk, ih]

theorem filter_and_of_imp {l : List α} {q r : α → Bool}
    (h : ∀ a ∈ l, r a = true → q a = true) :
    l.filter (fun a => q a && r a) = l.filter r := by
  induction l with
  | nil => simp
  | cons a as ih =>
    have ihr := ih (fun x hx => h x (by simp [hx]))
    by_cases hr : r a
    · have hq : q a = true := h a (by simp) hr
      simp [List.filter_cons, hr, hq, ihr]
    · simp [List.filter_cons, hr, ihr]

theorem countP_eq_len_of_all {l : List α} {p : α → Bool}
    (h : ∀ a ∈ l, p a = true) : l.countP p = l.length := by
  induction l with
  | nil => simp
  | cons a as ih =>
    rw [List.countP_cons, ih (fun x hx => h x (by simp [hx])), h a (by simp)]
    simp

theorem countP_eq_zero_of_none {l : List α} {p : α → Bool}
    (h : ∀ a ∈ l, p a = false) : l.countP p = 0 := by
  induction l with
  | nil => simp
  | cons a as ih =>
    rw [List.countP_cons, ih (fun x hx => h x (by simp [hx])), h a (by simp)]
    simp

/-! Helper lemmas about the id maps and insertion loops of the import. -/

theorem mapLookup_eq_none {m : IdMap} {key : String}
    (h : key ∉ m.map Prod.fst) : mapLookup m key = none := by
  unfold mapLookup
  rw [List.find?_eq_none.2]
  · rfl
  · intro p hp hkey
    exact h (List.mem_map.2 ⟨p, hp, by simpa using hkey⟩)

theorem mapOrKeep_eq_self {m : IdMap} {v : JVal}
    (h : ∀ s, v = JVal.str s → mapLookup m s = none) :
    mapOrKeep m v = v := by
  cases v <;> simp [mapOrKeep, mapOrKeepRaw]
  case str s =>
    intro _
    rw [h s rfl]

theorem importCarsLoop_idMap_sub {uid : String} {fresh : Nat → String}
    {mode : Mode} {userCars : List Car} :
    ∀ (l : List Car) (acc : ImpAcc Car)
      (q : String × String),
      q ∈ (importCarsLoop uid fresh mode userCars l acc).idMap →
      q ∈ acc.idMap ∨ q.1 ∈ l.map Car.id := by
  intro l
  induction l with
  | nil =>
    intro acc q hq
    exact Or.inl (by simpa [importCarsLoop] using hq)
  | cons ic rest ih =>
    intro acc q hq
    simp only [importCarsLoop] at hq
    rcases hfind : userCars.find? (fun c =>
        c.name == ic.name && c.manufacturer == ic.manufacturer &&
        c.series == ic.series) with _ | mc
    all_goals rw [hfind] at hq
    · rcases ih _ _ hq with h | h
      · rcases List.mem_cons.1 h with h | h
        · exact Or.inr (by simp [h])
        · exact Or.inl h
      · exact Or.inr (by simp [h])
    · cases mode
      all_goals
        rcases ih _ _ hq with h | h
        · rcases List.mem_cons.1 h with h | h
          · exact Or.inr (by simp [h])
          · exact Or.inl h
        · exact Or.inr (by simp [h])

theorem importCarsLoop_skipped_sub {uid : String} {fresh : Nat → String}
    {mode : Mode} {userCars : List Car} :
    ∀ (l : List Car) (acc : ImpAcc Car) (x : String),
      x ∈ (importCarsLoop uid fresh mode userCars l acc).skipped →
      x ∈ acc.skipped ∨ x ∈ l.map Car.id := by
  intro l
  induction l with
  | nil =>
    intro acc x hx
    exact Or.inl (by simpa [importCarsLoop] using hx)
  | cons ic rest ih =>
    intro acc x hx
    simp only [importCarsLoop] at hx
    rcases hfind : userCars.find? (fun c =>
        c.name == ic.name && c.manufacturer == ic.manufacturer &&
        c.series == ic.series) with _ | mc
    all_goals rw [hfind] at hx
    · rcases ih _ _ hx with h | h
      · exact Or.inl h
      · exact Or.inr (by simp [h])
    · cases mode
      all_goals
        rcases ih _ _ hx with h | h
      · exact Or.inl h
      · exact Or.inr (by simp [h])
      · rcases List.mem_cons.1 h with h | h
        · exact Or.inr (by simp [h])
        · exact Or.inl h
      · exact Or.inr (by simp [h])

theorem importTracksLoop_idMap_sub {uid : String} {fresh : Nat → String}
    {mode : Mode} {userTracks : List Track} :
    ∀ (l : List Track) (acc : ImpAcc Track)
      (q : String × String),
      q ∈ (importTracksLoop uid fresh mode userTracks l acc).idMap →
      q ∈ acc.idMap ∨ q.1 ∈ l.map Track.id := by
  intro l
  induction l with
  | nil =>
    intro acc q hq
    exact Or.inl (by simpa [importTracksLoop] using hq)
  | cons it rest ih =>
    intro acc q hq
    simp only [importTracksLoop] at hq
    rcases hfind : userTracks.find? (fun t =>
        t.name == it.name && t.location == it.location) with _ | mt
    all_goals rw [hfind] at hq
    · rcases ih _ _ hq with h | h
      · rcases List.mem_cons.1 h with h | h
        · exact Or.inr (by simp [h])
        · exact Or.inl h
      · exact Or.inr (by simp [h])
    · cases mode
      all_goals
        rcases ih _ _ hq with h | h
        · rcases List.mem_cons.1 h with h | h
          · exact Or.inr (by simp [h])
          · exact Or.inl h
        · exact Or.inr (by simp [h])

theorem importTracksLoop_skipped_sub {uid : String} {fresh : Nat → String}
    {mode : Mode} {userTracks : List Track} :
    ∀ (l : List Track) (acc : ImpAcc Track) (x : String),
      x ∈ (importTracksLoop uid fresh mode userTracks l acc).skipped →
      x ∈ acc.skipped ∨ x ∈ l.map Track.id := by
  intro l
  induction l with
  | nil =>
    intro acc x hx
    exact Or.inl (by simpa [importTracksLoop] using hx)
  | cons it rest ih =>
    intro acc x hx
    simp only [importTracksLoop] at hx
    rcases hfind : userTracks.find? (fun t =>
        t.name == it.name && t.location == it.location) with _ | mt
    all_goals rw [hfind] at hx
    · rcases ih _ _ hx with h | h
      · exact Or.inl h
      · exact Or.inr (by simp [h])
    · cases mode
      all_goals
        rcases ih _ _ hx with h | h
      · exact Or.inl h
      · exact Or.inr (by simp [h])
      · rcases List.mem_cons.1 h with h | h
        · exact Or.inr (by simp [h])
        · exact Or.inl h
      · exact Or.inr (by simp [h])

theorem insertSetups_mem {uid : String} {fresh : Nat → String}
    {cm tm : IdMap} :
    ∀ {l : List Setup} {k : Nat} {r : Setup},
      r ∈ (insertSetups uid fresh cm tm l k).1 →
      ∃ s ∈ l, ∃ k2,
        r = { s with
          id := fresh k2
          userId := uid
          carId := mapOrKeep cm s.carId
          trackId := mapOrKeep tm s.trackId } := by
  intro l
  induction l with
  | nil => intro k r hr; simp [insertSetups] at hr
  | cons s rest ih =>
    intro k r hr
    simp only [insertSetups] at hr
    rcases List.mem_cons.1 hr with h | h
    · exact ⟨s, by simp, k, h⟩
    · obtain ⟨s2, hs2, k2, hk2⟩ := ih h
      exact ⟨s2, by simp [hs2], k2, hk2⟩

theorem insertSetups_mem_of {uid : String} {fresh : Nat → String}
    {cm tm : IdMap} :
    ∀ {l : List Setup} {k : Nat} {s : Setup},
      s ∈ l →
      ∃ k2,
        { s with
          id := fresh k2
          userId := uid
          carId := mapOrKeep cm s.carId
          trackId := mapOrKeep tm s.trackId } ∈
          (insertSetups uid fresh cm tm l k).1 := by
  intro l
  induction l with
  | nil => intro k s hs; simp at hs
  | cons a rest ih =>
    intro k s hs
    rcases List.mem_cons.1 hs with h | h
    · subst h
      exact ⟨k, by simp [insertSetups]⟩
    · obtain ⟨k2, hk2⟩ := @ih (k + 1) s h
      exact ⟨k2, by simp [insertSetups, hk2]⟩

theorem insertSetups_length {uid : String} {fresh : Nat → String}
    {cm tm : IdMap} :
    ∀ (l : List Setup) (k : Nat),
      (insertSetups uid fresh cm tm l k).1.length = l.length := by
  intro l
  induction l with
  | nil => intro k; simp [insertSetups]
  | cons s rest ih => intro k; simp [insertSetups, ih]

theorem insertSetupsPres_mem_of {uid : String} {fresh : Nat → String}
    {cm tm : IdMap} {skC skT : List String} :
    ∀ {l : List Setup} {k : Nat} {s : Setup},
      s ∈ l →
      ((s.carId.truthy && jvalIn s.carId skC) ||
       (s.trackId.truthy && jvalIn s.trackId skT)) = false →
      ∃ k2,
        { s with
          id := fresh k2
          userId := uid
          carId := mapOrKeep cm s.carId
          trackId := mapOrKeep tm s.trackId } ∈
          (insertSetupsPres uid fresh cm tm skC skT l k).1 := by
  intro l
  induction l with
  | nil => intro k s hs _; simp at hs
  | cons a rest ih =>
    intro k s hs hskip
    rcases List.mem_cons.1 hs with h | h
    · subst h
      refine ⟨k, ?_⟩
      simp only [insertSetupsPres, hskip]
      simp
    · by_cases ha : ((a.carId.truthy && jvalIn a.carId skC) ||
          (a.trackId.truthy && jvalIn a.trackId skT)) = true
      · obtain ⟨k2, hk2⟩ := @ih k s h hskip
        exact ⟨k2, by simp only [insertSetupsPres, ha]; simpa using hk2⟩
      · have ha2 : ((a.carId.truthy && jvalIn a.carId skC) ||
            (a.trackId.truthy && jvalIn a.trackId skT)) = false := by
          simpa using ha
        obtain ⟨k2, hk2⟩ := @ih (k + 1) s h hskip
        refine ⟨k2, ?_⟩
        simp only [insertSetupsPres, ha2]
        simp only [Bool.false_eq_true, if_false, List.mem_cons]
        exact Or.inr hk2

/-- Shows `fieldNN` as the case split the specification describes:
a value present and non-null overwrites, an explicit null or an absent
key preserves the stored value. -/
theorem fieldNN_eq (f : Option JVal) (old : JVal) :
    fieldNN f old =
      (match f with
       | some v => if v = JVal.null then old else v
       | none => old) := by
  rcases f with _ | v
  · rfl
  · cases v <;> rfl

/-! Concrete fixtures used by witnesses and counterexamples. -/

/-- Empty state fixture. -/
def emptySt : St :=
  { users := []
    cars := []
    tracks := []
    setups := []
    sessions := []
    cornerNotes := []
    trackNotes := []
    maintenance := [] }

/-- Car fixture owned by user `u`. -/
def carBase : Car :=
  { id := "c1"
    userId := "u"
    name := JVal.str "MX5"
    manufacturer := JVal.str "Mazda"
    series := JVal.str "SM" }

/-- Track fixture owned by user `u`. -/
def trackBase : Track :=
  { id := "t1"
    userId := "u"
    name := JVal.str "Spa"
    location := JVal.str "BE"
    length := JVal.str "7"
    imageUrl := JVal.str ""
    corners := JVal.strList []
    circuitNotes := JVal.null }

/-- Setup fixture owned by user `u`, with no car and no track. -/
def setupBase : Setup :=
  { id := "s1"
    userId := "u"
    carId := JVal.null
    trackId := JVal.null
    name := JVal.str "base"
    date := JVal.str "2024-01-01"
    toeFront := JVal.str "0.5mm"
    toeRear := JVal.str ""
    camberFront := JVal.str ""
    camberRear := JVal.str ""
    casterFront := JVal.str ""
    cornerWeights := JVal.quad 0 0 0 0
    totalWeight := JVal.num 0
    rideHeightFront := JVal.str ""
    rideHeightRear := JVal.str ""
    antiRollBarFront := JVal.str ""
    antiRollBarRear := JVal.str ""
    tyrePressures := JVal.quad 0 0 0 0
    fuelQuantity := JVal.str ""
    tyreMake := JVal.str ""
    notes := JVal.str "" }

/-- Session fixture owned by user `u`, with no car and no track. -/
def sessionBase : Session :=
  { id := "sess1"
    userId := "u"
    carId := JVal.null
    trackId := JVal.null
    type := JVal.str "test"
    name := JVal.str "n"
    date := JVal.str "2024-01-01"
    trackConditions := JVal.str ""
    tyrePressures := JVal.null
    frontARB := JVal.str ""
    rearARB := JVal.str ""
    brakeBias := JVal.str ""
    setupComments := JVal.str ""
    focusAreas := JVal.str ""
    bestLaptime := JVal.str ""
    idealLaptime := JVal.str ""
    series := JVal.str "" }

/-- TrackNote fixture owned by user `u`. -/
def trackNoteBase : TrackNote :=
  { id := "tn1"
    userId := "u"
    carId := JVal.null
    trackId := JVal.null
    notes := JVal.str "note" }

/-- MaintenanceTask fixture owned by user `u`. -/
def maintBase : MaintenanceTask :=
  { id := "m1"
    userId := "u"
    carId := JVal.null
    date := JVal.str "2024-01-01"
    type := JVal.strList ["oil"]
    name := JVal.str "oil change"
    description := JVal.str ""
    mileage := JVal.str ""
    partsUsed := JVal.str ""
    notes := JVal.str "" }

/-- CornerNote fixture owned by user `u`. -/
def cornerNoteBase : CornerNote :=
  { id := "cn1"
    userId := "u"
    sessionId := JVal.str "sess1"
    cornerName := JVal.str "Eau Rouge"
    entry := JVal.str ""
    apex := JVal.str "late"
    exit := JVal.str "" }

/-! Claim theorems. -/

/-- C3 (amended): the Setup update is a full shallow merge — every schema
key present in the input, an explicit null included, overwrites the
stored field, and an absent key preserves it — while the Car and Session
updates use null-coalescing on a fixed field list, so a key present with
a non-null value overwrites but an explicit null (like an absent key)
preserves the stored value, and Session updates never change `carId` or
`trackId`; in all three operations the resulting `id` and `userId` equal
the original stored values regardless of what the input supplies. -/
theorem c3_update_merge_semantics :
    (∀ (b : SetupInput) (s : Setup),
      (updateSetupRec b s).id = s.id ∧
      (updateSetupRec b s).userId = s.userId ∧
      ∀ f : SetupField,
        (updateSetupRec b s).fieldVal f =
          (b.fieldVal f).getD (s.fieldVal f)) ∧
    (∀ (b : CarInput) (c : Car),
      (updateCarRec b c).id = c.id ∧
      (updateCarRec b c).userId = c.userId ∧
      ∀ f : CarField,
        (updateCarRec b c).fieldVal f =
          (match b.fieldVal f with
           | some v => if v = JVal.null then c.fieldVal f else v
           | none => c.fieldVal f)) ∧
    (∀ (b : SessionInput) (s : Session),
      (updateSessionRec b s).id = s.id ∧
      (updateSessionRec b s).userId = s.userId ∧
      (updateSessionRec b s).carId = s.carId ∧
      (updateSessionRec b s).trackId = s.trackId ∧
      ∀ f : SessionField,
        (updateSessionRec b s).fieldVal f =
          (match b.fieldVal f with
           | some v => if v = JVal.null then s.fieldVal f else v
           | none => s.fieldVal f)) := by
  refine ⟨?_, ?_, ?_⟩
  · intro b s
    refine ⟨rfl, rfl, ?_⟩
    intro f
    cases f <;> rfl
  · intro b c
    refine ⟨rfl, rfl, ?_⟩
    intro f
    cases f <;>
      simp only [updateCarRec, Car.fieldVal, CarInput.fieldVal, fieldNN_eq]
  · intro b s
    refine ⟨rfl, rfl, rfl, rfl, ?_⟩
    intro f
    cases f <;>
      simp only [updateSessionRec, Session.fieldVal, SessionInput.fieldVal,
        fieldNN_eq]

/-- State fixture for the C3 counterexample: one car named "A". -/
def stC3 : St :=
  { emptySt with cars := [{ carBase with name := JVal.str "A" }] }

/-- Input fixture for the C3 counterexample: explicit `null` name. -/
def bC3 : CarInput := { name := some JVal.null }

/-- C3 counterexample: updating a Car with the key `name` present and
explicitly `null` leaves the stored name `"A"` unchanged instead of
overwriting it with null as the claim requires. -/
theorem c3_counterexample :
    bC3.name = some JVal.null ∧
    updateCar "u" "c1" bC3 stC3 =
      .ok ({ carBase with name := JVal.str "A" }, stC3) ∧
    ({ carBase with name := JVal.str "A" } : Car).name = JVal.str "A" := by
  refine ⟨rfl, by decide, rfl⟩

/-- State fixture for C4: user `u` owns car `c1` plus a Setup, TrackNote
and MaintenanceTask referencing it, a Setup referencing another car, and
user `v` owns a Setup referencing the same `c1`. -/
def stC4 : St :=
  { emptySt with
    cars := [carBase]
    setups := [
      { setupBase with carId := JVal.str "c1" },
      { setupBase with id := "s2", carId := JVal.str "c9" },
      { setupBase with id := "s3", userId := "v", carId := JVal.str "c1" }]
    sessions := [{ sessionBase with carId := JVal.str "c1" }]
    trackNotes := [{ trackNoteBase with carId := JVal.str "c1" }]
    maintenance := [{ maintBase with carId := JVal.str "c1" }] }

/-- Post-state fixture of the C4 delete. -/
def stC4b : St := resultState stC4 (deleteCar "u" "c1" stC4)

/-- C4 (confirmed): after a successful single-entity Car delete, no Setup,
TrackNote or MaintenanceTask of the caller references the deleted car id
(they are hard-deleted), records of other users are unchanged in all four
touched collections, and the untouched collections are identical. -/
theorem c4_car_delete_cascade (uid cid : String) (st st' : St)
    (h : deleteCar uid cid st = .ok st') :
    (∀ s ∈ st'.setups, ¬(s.userId = uid ∧ s.carId = JVal.str cid)) ∧
    (∀ tn ∈ st'.trackNotes, ¬(tn.userId = uid ∧ tn.carId = JVal.str cid)) ∧
    (∀ m ∈ st'.maintenance, ¬(m.userId = uid ∧ m.carId = JVal.str cid)) ∧
    st'.cars.filter (fun c => !(c.userId == uid)) =
      st.cars.filter (fun c => !(c.userId == uid)) ∧
    st'.setups.filter (fun s => !(s.userId == uid)) =
      st.setups.filter (fun s => !(s.userId == uid)) ∧
    st'.trackNotes.filter (fun tn => !(tn.userId == uid)) =
      st.trackNotes.filter (fun tn => !(tn.userId == uid)) ∧
    st'.maintenance.filter (fun m => !(m.userId == uid)) =
      st.maintenance.filter (fun m => !(m.userId == uid)) ∧
    st'.sessions = st.sessions ∧
    st'.cornerNotes = st.cornerNotes ∧
    st'.tracks = st.tracks ∧
    st'.users = st.users := by
  unfold deleteCar at h
  rcases hsp : spliceFirst (fun c => c.id == cid && c.userId == uid) st.cars
    with _ | cars1
  all_goals rw [hsp] at h
  · cases h
  · injection h with h
    subst h
    refine ⟨?_, ?_, ?_, ?_, ?_, ?_, ?_, rfl, rfl, rfl, rfl⟩
    · rintro s hs ⟨hu, hc⟩
      have := (List.mem_filter.1 hs).2
      simp [hu, hc] at this
    · rintro tn htn ⟨hu, hc⟩
      have := (List.mem_filter.1 htn).2
      simp [hu, hc] at this
    · rintro m hm ⟨hu, hc⟩
      have := (List.mem_filter.1 hm).2
      simp [hu, hc] at this
    · exact spliceFirst_filter
        (by intro a ha; simp at ha; simp [ha.2]) hsp
    · exact filter_sub_eq
        (by intro a ha; simp at ha; simp [ha])
    · exact filter_sub_eq
        (by intro a ha; simp at ha; simp [ha])
    · exact filter_sub_eq
        (by intro a ha; simp at ha; simp [ha])

/-- C4 witness: the cascade hypothesis holds at the concrete fixture and
the frame equalities of the theorem follow there. -/
theorem c4_witness :
    stC4b.setups.filter (fun s => !(s.userId == "u")) =
      stC4.setups.filter (fun s => !(s.userId == "u")) ∧
    stC4b.sessions = stC4.sessions :=
  ⟨(c4_car_delete_cascade "u" "c1" stC4 stC4b (by decide)).2.2.2.2.1,
   (c4_car_delete_cascade "u" "c1" stC4 stC4b (by decide)).2.2.2.2.2.2.2.1⟩

/-- C7 (confirmed): when a record's id resolves only to records of its
owner `u1`, a get, update or delete issued by a different caller `u2`
returns NotFound, no write is performed, and the owner's record is still
present afterwards. -/
theorem c7_ownership_isolation (u1 u2 : String) (st : St)
    (c : Car) (s0 : Setup) (b : CarInput)
    (hne : u2 ≠ u1)
    (hcOnly : ∀ x ∈ st.cars, x.id = c.id → x.userId = u1)
    (hc : c ∈ st.cars)
    (hsOnly : ∀ x ∈ st.setups, x.id = s0.id → x.userId = u1)
    (hs : s0 ∈ st.setups) :
    getCar u2 c.id st = .error .notFound ∧
    updateCar u2 c.id b st = .error .notFound ∧
    deleteCar u2 c.id st = .error .notFound ∧
    deleteSetup u2 s0.id st = .error .notFound ∧
    resultState st (deleteCar u2 c.id st) = st ∧
    resultState st (deleteSetup u2 s0.id st) = st ∧
    c ∈ (resultState st (deleteCar u2 c.id st)).cars ∧
    s0 ∈ (resultState st (deleteSetup u2 s0.id st)).setups := by
  have hcNone : ∀ x ∈ st.cars, (x.id == c.id && x.userId == u2) = false := by
    intro x hx
    by_cases hid : x.id = c.id
    · simp [hcOnly x hx hid]
      intro _ h
      exact hne h.symm
    · simp [hid]
  have hsNone : ∀ x ∈ st.setups, (x.id == s0.id && x.userId == u2) = false := by
    intro x hx
    by_cases hid : x.id = s0.id
    · simp [hsOnly x hx hid]
      intro _ h
      exact hne h.symm
    · simp [hid]
  have hget : st.cars.find? (fun x => x.id == c.id && x.userId == u2) = none :=
    List.find?_eq_none.2 (fun x hx => by simp [hcNone x hx])
  have hupd : updFirst? (fun x => x.id == c.id && x.userId == u2)
      (updateCarRec b) st.cars = none :=
    updFirst?_eq_none.2 hcNone
  have hdelc : spliceFirst (fun x => x.id == c.id && x.userId == u2)
      st.cars = none :=
    spliceFirst_eq_none.2 hcNone
  have hdels : spliceFirst (fun x => x.id == s0.id && x.userId == u2)
      st.setups = none :=
    spliceFirst_eq_none.2 hsNone
  have e1 : getCar u2 c.id st = .error .notFound := by
    simp [getCar, hget]
  have e2 : updateCar u2 c.id b st = .error .notFound := by
    simp [updateCar, hupd]
  have e3 : deleteCar u2 c.id st = .error .notFound := by
    simp [deleteCar, hdelc]
  have e4 : deleteSetup u2 s0.id st = .error .notFound := by
    simp [deleteSetup, hdels]
  refine ⟨e1, e2, e3, e4, ?_, ?_, ?_, ?_⟩
  · rw [e3]; rfl
  · rw [e4]; rfl
  · rw [e3]; exact hc
  · rw [e4]; exact hs

/-- State fixture for the C7 witness: `u` owns a car and a setup; the
caller is the unrelated user `w`. -/
def stC7 : St := { emptySt with cars := [carBase], setups := [setupBase] }

/-- C7 witness: cross-user get and deletes on the fixture all yield
NotFound. -/
theorem c7_witness :
    getCar "w" "c1" stC7 = .error .notFound ∧
    deleteCar "w" "c1" stC7 = .error .notFound ∧
    deleteSetup "w" "s1" stC7 = .error .notFound :=
  ⟨(c7_ownership_isolation "u" "w" stC7 carBase setupBase {} (by decide)
      (by decide) (by decide) (by decide) (by decide)).1,
   (c7_ownership_isolation "u" "w" stC7 carBase setupBase {} (by decide)
      (by decide) (by decide) (by decide) (by decide)).2.2.1,
   (c7_ownership_isolation "u" "w" stC7 carBase setupBase {} (by decide)
      (by decide) (by decide) (by decide) (by decide)).2.2.2.1⟩

/-- C6 (confirmed): account deletion first verifies the password; on
failure it returns the authentication error with no state change, and on
success no record in any of the seven collections carries the deleted
user id and the user record itself is gone. -/
theorem c6_account_deletion (uid pw : String)
    (cmp : String → String → Bool) (st : St) (u : User)
    (hu : st.users.find? (fun x => x.id == uid) = some u)
    (hpw : pw ≠ "") :
    (cmp pw u.passwordHash = false →
      deleteAccount uid pw cmp st = .error .auth ∧
      resultState st (deleteAccount uid pw cmp st) = st) ∧
    (cmp pw u.passwordHash = true →
      ∀ st', deleteAccount uid pw cmp st = .ok st' →
        (∀ x ∈ st'.cars, x.userId ≠ uid) ∧
        (∀ x ∈ st'.setups, x.userId ≠ uid) ∧
        (∀ x ∈ st'.tracks, x.userId ≠ uid) ∧
        (∀ x ∈ st'.sessions, x.userId ≠ uid) ∧
        (∀ x ∈ st'.cornerNotes, x.userId ≠ uid) ∧
        (∀ x ∈ st'.trackNotes, x.userId ≠ uid) ∧
        (∀ x ∈ st'.maintenance, x.userId ≠ uid) ∧
        (∀ x ∈ st'.users, x.id ≠ uid)) := by
  have hpwb : (pw == "") = false := by simp [hpw]
  constructor
  · intro hcmp
    have herr : deleteAccount uid pw cmp st = .error .auth := by
      simp [deleteAccount, hpwb, hu, hcmp]
    exact ⟨herr, by rw [herr]; rfl⟩
  · intro hcmp st' h
    simp only [deleteAccount, hpwb, Bool.false_eq_true, if_false, hu,
      hcmp, if_true] at h
    injection h with h
    subst h
    refine ⟨?_, ?_, ?_, ?_, ?_, ?_, ?_, ?_⟩
    all_goals
      intro x hx heq
      have := (List.mem_filter.1 hx).2
      simp [heq] at this

/-- User fixture. -/
def userBase : User :=
  { id := "u", userName := "alice", passwordHash := "hash" }

/-- State fixture for the C6 witness: the C4 data plus its owner's user
record. -/
def stC6 : St := { stC4 with users := [userBase] }

/-- C6 witness: a wrong password yields the authentication error and the
state is untouched at the concrete fixture. -/
theorem c6_witness :
    deleteAccount "u" "wrong" (fun p h => p == h) stC6 = .error .auth ∧
    resultState stC6 (deleteAccount "u" "wrong" (fun p h => p == h) stC6) =
      stC6 :=
  (c6_account_deletion "u" "wrong" (fun p h => p == h) stC6 userBase
    (by decide) (by decide)).1 (by decide)

/-- C1 (amended): after a successful single-entity Track delete, no Setup
or TrackNote of the caller references the deleted track id (Setups are
nullified in place — all setup ids survive — and TrackNotes are
hard-deleted), but the Session collection is written back entirely
unchanged, so a Session referencing the deleted track keeps its dangling
`trackId`. -/
theorem c1_track_delete_amended (uid tid : String) (st st' : St)
    (h : deleteTrack uid tid st = .ok st') :
    (∀ s ∈ st'.setups, ¬(s.userId = uid ∧ s.trackId = JVal.str tid)) ∧
    (∀ tn ∈ st'.trackNotes, ¬(tn.userId = uid ∧ tn.trackId = JVal.str tid)) ∧
    st'.setups.map (fun s => s.id) = st.setups.map (fun s => s.id) ∧
    st'.sessions = st.sessions := by
  unfold deleteTrack at h
  rcases hsp : spliceFirst (fun t => t.id == tid && t.userId == uid) st.tracks
    with _ | tracks1
  all_goals rw [hsp] at h
  · cases h
  · injection h with h
    subst h
    refine ⟨?_, ?_, ?_, rfl⟩
    · rintro s hs ⟨hu, ht⟩
      obtain ⟨s0, hs0, hmap⟩ := List.mem_map.1 hs
      by_cases hcond : (s0.trackId == JVal.str tid && s0.userId == uid) = true
      · rw [if_pos hcond] at hmap
        rw [← hmap] at ht
        simp at ht
      · rw [if_neg (by simpa using hcond)] at hmap
        subst hmap
        simp [hu, ht] at hcond
    · rintro tn htn ⟨hu, ht⟩
      have := (List.mem_filter.1 htn).2
      simp [hu, ht] at this
    · rw [List.map_map]
      refine List.map_congr_left ?_
      intro s _
      simp only [Function.comp_apply]
      split <;> rfl

/-- State fixture for C1: track `t1` with a Setup and a Session of the
same user referencing it. -/
def stC1 : St :=
  { emptySt with
    tracks := [trackBase]
    setups := [{ setupBase with trackId := JVal.str "t1" }]
    sessions := [{ sessionBase with trackId := JVal.str "t1" }] }

/-- Post-state fixture of the C1 track delete. -/
def stC1b : St := resultState stC1 (deleteTrack "u" "t1" stC1)

/-- C1 counterexample: the Track delete succeeds, yet the user's Session
still carries `trackId = "t1"` afterwards — the claim's requirement that
no Session record retains the deleted track id fails on the code. -/
theorem c1_counterexample :
    deleteTrack "u" "t1" stC1 = .ok stC1b ∧
    { sessionBase with trackId := JVal.str "t1" } ∈ stC1b.sessions ∧
    ({ sessionBase with trackId := JVal.str "t1" } : Session).userId = "u" ∧
    ({ sessionBase with trackId := JVal.str "t1" } : Session).trackId =
      JVal.str "t1" := by
  exact ⟨by decide, by decide, rfl, rfl⟩

/-- C1 witness: the amended theorem applies at the concrete fixture — the
sessions collection is unchanged and all setup ids survive. -/
theorem c1_witness :
    stC1b.sessions = stC1.sessions ∧
    stC1b.setups.map (fun s => s.id) = stC1.setups.map (fun s => s.id) :=
  ⟨(c1_track_delete_amended "u" "t1" stC1 stC1b (by decide)).2.2.2,
   (c1_track_delete_amended "u" "t1" stC1 stC1b (by decide)).2.2.1⟩

/-- C5 (confirmed): the corner-note upsert rejects a body whose
`sessionId` or `cornerName` is falsy with a validation error; with both
present and a valid `field` it either updates exactly the first record
matching `(ownerId, sessionId, cornerName)` — changing only the named
field to `value || ""` and returning the full record with the updated
status — or, when no record matches, creates and returns a record whose
other two fields are empty; the resolver's whole signature is over the
corner-notes list alone and its outcome is independent of the Session
collection. -/
theorem c5_corner_note_upsert (uid nid : String) (b : CNBody)
    (notes : List CornerNote) :
    (((b.sessionId.getD JVal.null).truthy = false ∨
      (b.cornerName.getD JVal.null).truthy = false) →
      upsertCornerNote uid nid b notes = .error .validation) ∧
    (∀ sid cname fv,
      b.sessionId = some sid → sid.truthy = true →
      b.cornerName = some cname → cname.truthy = true →
      b.field = some fv → isNamedField fv = true →
      (∀ cn0 l1 l2,
        notes = l1 ++ cn0 :: l2 →
        (∀ x ∈ l1, (x.sessionId == sid && x.cornerName == cname &&
          x.userId == uid) = false) →
        (cn0.sessionId == sid && cn0.cornerName == cname &&
          cn0.userId == uid) = true →
        upsertCornerNote uid nid b notes =
          .ok (.updated,
            setNamedField fv (fieldOr b.value (JVal.str "")) cn0,
            l1 ++ setNamedField fv (fieldOr b.value (JVal.str "")) cn0 :: l2) ∧
        (setNamedField fv (fieldOr b.value (JVal.str "")) cn0).id = cn0.id ∧
        (setNamedField fv (fieldOr b.value (JVal.str "")) cn0).userId =
          cn0.userId ∧
        (setNamedField fv (fieldOr b.value (JVal.str "")) cn0).sessionId =
          cn0.sessionId ∧
        (setNamedField fv (fieldOr b.value (JVal.str "")) cn0).cornerName =
          cn0.cornerName ∧
        (fv = JVal.str "entry" →
          (setNamedField fv (fieldOr b.value (JVal.str "")) cn0).entry =
            fieldOr b.value (JVal.str "") ∧
          (setNamedField fv (fieldOr b.value (JVal.str "")) cn0).apex =
            cn0.apex ∧
          (setNamedField fv (fieldOr b.value (JVal.str "")) cn0).exit =
            cn0.exit) ∧
        (fv = JVal.str "apex" →
          (setNamedField fv (fieldOr b.value (JVal.str "")) cn0).apex =
            fieldOr b.value (JVal.str "") ∧
          (setNamedField fv (fieldOr b.value (JVal.str "")) cn0).entry =
            cn0.entry ∧
          (setNamedField fv (fieldOr b.value (JVal.str "")) cn0).exit =
            cn0.exit) ∧
        (fv = JVal.str "exit" →
          (setNamedField fv (fieldOr b.value (JVal.str "")) cn0).exit =
            fieldOr b.value (JVal.str "") ∧
          (setNamedField fv (fieldOr b.value (JVal.str "")) cn0).entry =
            cn0.entry ∧
          (setNamedField fv (fieldOr b.value (JVal.str "")) cn0).apex =
            cn0.apex)) ∧
      ((∀ x ∈ notes, (x.sessionId == sid && x.cornerName == cname &&
          x.userId == uid) = false) →
        ∃ nn,
          upsertCornerNote uid nid b notes =
            .ok (.created, nn, notes ++ [nn]) ∧
          nn.id = nid ∧ nn.userId = uid ∧ nn.sessionId = sid ∧
          nn.cornerName = cname ∧
          (fv = JVal.str "entry" →
            nn.entry = fieldOr b.value (JVal.str "") ∧
            nn.apex = JVal.str "" ∧ nn.exit = JVal.str "") ∧
          (fv = JVal.str "apex" →
            nn.apex = fieldOr b.value (JVal.str "") ∧
            nn.entry = JVal.str "" ∧ nn.exit = JVal.str "") ∧
          (fv = JVal.str "exit" →
            nn.exit = fieldOr b.value (JVal.str "") ∧
            nn.entry = JVal.str "" ∧ nn.apex = JVal.str ""))) ∧
    (∀ (st : St) (ss : List Session),
      upsertCornerNoteSt uid nid b { st with sessions := ss } =
        (upsertCornerNoteSt uid nid b st).map
          (fun r => (r.1, r.2.1, { r.2.2 with sessions := ss }))) := by
  refine ⟨?_, ?_, ?_⟩
  · intro h
    rcases h with h | h <;>
      simp [upsertCornerNote, h]
  · intro sid cname fv hb1 hts hb2 htc hbf hnamed
    have hcases : fv = JVal.str "entry" ∨ fv = JVal.str "apex" ∨
        fv = JVal.str "exit" := by
      have h2 := hnamed
      simp only [isNamedField, Bool.or_eq_true, beq_iff_eq] at h2
      rcases h2 with (h | h) | h
      · exact Or.inl h
      · exact Or.inr (Or.inl h)
      · exact Or.inr (Or.inr h)
    have htr : fv.truthy = true := by
      rcases hcases with h | h | h <;> simp [h, JVal.truthy]
    constructor
    · intro cn0 l1 l2 hsplit h1 hcn0
      have hupd : updFirst?
          (fun cn => cn.sessionId == sid && cn.cornerName == cname &&
            cn.userId == uid)
          (fun cn =>
            if fv.truthy && isNamedField fv then
              setNamedField fv (fieldOr b.value (JVal.str "")) cn
            else cn) notes =
          some (setNamedField fv (fieldOr b.value (JVal.str "")) cn0,
            l1 ++ setNamedField fv (fieldOr b.value (JVal.str "")) cn0 :: l2) := by
        rw [hsplit]
        rw [updFirst?_append l1 cn0 l2 h1 hcn0]
        simp [htr, hnamed]
      refine ⟨?_, ?_, ?_, ?_, ?_, ?_, ?_, ?_⟩
      · simp only [upsertCornerNote, hb1, hb2, hbf, Option.getD_some, hts,
          htc, Bool.not_true, Bool.or_self, Bool.false_eq_true, if_false]
        rw [hupd]
      all_goals
        rcases hcases with h | h | h <;> simp [h, setNamedField]
    · intro hnone
      have hupd : updFirst?
          (fun cn => cn.sessionId == sid && cn.cornerName == cname &&
            cn.userId == uid)
          (fun cn =>
            if fv.truthy && isNamedField fv then
              setNamedField fv (fieldOr b.value (JVal.str "")) cn
            else cn) notes = none :=
        updFirst?_eq_none.2 hnone
      refine ⟨{ id := nid
                userId := uid
                sessionId := sid
                cornerName := cname
                entry := if fv == JVal.str "entry" then
                  fieldOr b.value (JVal.str "") else JVal.str ""
                apex := if fv == JVal.str "apex" then
                  fieldOr b.value (JVal.str "") else JVal.str ""
                exit := if fv == JVal.str "exit" then
                  fieldOr b.value (JVal.str "") else JVal.str "" },
          ?_, rfl, rfl, rfl, rfl, ?_, ?_, ?_⟩
      · simp only [upsertCornerNote, hb1, hb2, hbf, Option.getD_some, hts,
          htc, Bool.not_true, Bool.or_self, Bool.false_eq_true, if_false]
        rw [hupd]
      all_goals
        intro h
        refine ⟨by simp [h], ?_, ?_⟩ <;> simp [h]
  · intro st ss
    unfold upsertCornerNoteSt
    rcases upsertCornerNote uid nid b st.cornerNotes with e | ⟨s, r, l⟩ <;>
      rfl

/-- Body fixture for the C5 witness: set the apex note. -/
def bC5 : CNBody :=
  { sessionId := some (JVal.str "sess1")
    cornerName := some (JVal.str "Eau Rouge")
    field := some (JVal.str "apex")
    value := some (JVal.str "later") }

/-- C5 witness: the update branch of the theorem instantiated at the
concrete fixture record. -/
theorem c5_witness :
    upsertCornerNote "u" "nid9" bC5 [cornerNoteBase] =
      .ok (.updated,
        setNamedField (JVal.str "apex") (fieldOr bC5.value (JVal.str ""))
          cornerNoteBase,
        [] ++ setNamedField (JVal.str "apex") (fieldOr bC5.value (JVal.str ""))
          cornerNoteBase :: []) :=
  (((c5_corner_note_upsert "u" "nid9" bC5 [cornerNoteBase]).2.1
      (JVal.str "sess1") (JVal.str "Eau Rouge") (JVal.str "apex")
      rfl rfl rfl rfl rfl rfl).1
    cornerNoteBase [] [] rfl (by simp) (by decide)).1

/-- C9 (confirmed): when the body's key matches an existing record but
`field` is absent or not one of entry/apex/exit, the upsert succeeds,
returns the existing record with the updated status, and the corner-notes
collection is written back entirely unchanged. -/
theorem c9_invalid_field_noop (uid nid : String) (b : CNBody)
    (notes : List CornerNote) (sid cname : JVal) (cn0 : CornerNote)
    (hb1 : b.sessionId = some sid) (hts : sid.truthy = true)
    (hb2 : b.cornerName = some cname) (htc : cname.truthy = true)
    (hbad : isNamedField (b.field.getD JVal.null) = false)
    (hfind : notes.find? (fun cn => cn.sessionId == sid &&
      cn.cornerName == cname && cn.userId == uid) = some cn0) :
    upsertCornerNote uid nid b notes = .ok (.updated, cn0, notes) := by
  have hupd : updFirst?
      (fun cn => cn.sessionId == sid && cn.cornerName == cname &&
        cn.userId == uid)
      (fun cn =>
        if (b.field.getD JVal.null).truthy &&
            isNamedField (b.field.getD JVal.null) then
          setNamedField (b.field.getD JVal.null)
            (fieldOr b.value (JVal.str "")) cn
        else cn) notes = some (cn0, notes) :=
    updFirst?_of_find? hfind (fun x => by simp [hbad])
  simp only [upsertCornerNote, hb1, hb2, Option.getD_some, hts, htc,
    Bool.not_true, Bool.or_self, Bool.false_eq_true, if_false]
  rw [hupd]

/-- C9 witness: an unrecognized field name on the fixture record leaves
the collection as it was and returns the record. -/
theorem c9_witness :
    upsertCornerNote "u" "nid9"
      { bC5 with field := some (JVal.str "banana") } [cornerNoteBase] =
      .ok (.updated, cornerNoteBase, [cornerNoteBase]) :=
  c9_invalid_field_noop "u" "nid9"
    { bC5 with field := some (JVal.str "banana") } [cornerNoteBase]
    (JVal.str "sess1") (JVal.str "Eau Rouge") cornerNoteBase
    rfl rfl rfl rfl (by decide) (by decide)

/-- After the car pass, no record of the caller references a selected
owned car, and the car itself is gone. -/
theorem bulkCarPass_clears (uid : String) (carIds : List String) (st : St)
    (C : Car) (hC : C ∈ st.cars) (hCu : C.userId = uid)
    (hCin : C.id ∈ carIds) (hne : C.id ≠ "") :
    (∀ c ∈ (bulkCarPass uid carIds st).cars, ¬(c.userId = uid ∧ c.id = C.id)) ∧
    (∀ s ∈ (bulkCarPass uid carIds st).setups,
      ¬(s.userId = uid ∧ s.carId = JVal.str C.id)) ∧
    (∀ s ∈ (bulkCarPass uid carIds st).sessions,
      ¬(s.userId = uid ∧ s.carId = JVal.str C.id)) ∧
    (∀ tn ∈ (bulkCarPass uid carIds st).trackNotes,
      ¬(tn.userId = uid ∧ tn.carId = JVal.str C.id)) ∧
    (∀ m ∈ (bulkCarPass uid carIds st).maintenance,
      ¬(m.userId = uid ∧ m.carId = JVal.str C.id)) ∧
    (∀ S ∈ st.sessions, S.userId = uid → S.carId = JVal.str C.id →
      ∀ cn ∈ (bulkCarPass uid carIds st).cornerNotes,
        ¬(cn.userId = uid ∧ cn.sessionId = JVal.str S.id)) := by
  have hmemIds : C.id ∈
      (st.cars.filter (fun c => c.userId == uid && carIds.contains c.id)).map
        (fun c => c.id) := by
    refine List.mem_map.2 ⟨C, ?_, rfl⟩
    refine List.mem_filter.2 ⟨hC, ?_⟩
    simp [hCu, hCin]
  have hjv : jvalIn (JVal.str C.id)
      ((st.cars.filter (fun c => c.userId == uid && carIds.contains c.id)).map
        (fun c => c.id)) = true := by
    simpa [jvalIn] using hmemIds
  have htr : (JVal.str C.id).truthy = true := by simp [JVal.truthy, hne]
  have hcont : ((st.cars.filter (fun c => c.userId == uid &&
      carIds.contains c.id)).map (fun c => c.id)).contains C.id = true := by
    simpa using hmemIds
  refine ⟨?_, ?_, ?_, ?_, ?_, ?_⟩
  · rintro c hc ⟨hu, hid⟩
    have hk := (List.mem_filter.1 hc).2
    rw [hu, hid] at hk
    rw [hcont] at hk
    simp at hk
  · rintro s hs ⟨hu, hcar⟩
    have hk := (List.mem_filter.1 hs).2
    rw [hu, hcar, htr, hjv] at hk
    simp at hk
  · rintro s hs ⟨hu, hcar⟩
    have hmem : s ∈ st.sessions := (List.mem_filter.1 hs).1
    have hkeep := (List.mem_filter.1 hs).2
    have hsel : s.id ∈
        (st.sessions.filter (fun x =>
          x.userId == uid && x.carId.truthy && jvalIn x.carId
            ((st.cars.filter (fun c => c.userId == uid &&
              carIds.contains c.id)).map (fun c => c.id)))).map
          (fun x => x.id) := by
      refine List.mem_map.2 ⟨s, ?_, rfl⟩
      refine List.mem_filter.2 ⟨hmem, ?_⟩
      rw [hu, hcar, htr, hjv]
      simp
    have hcontS : ((st.sessions.filter (fun x =>
        x.userId == uid && x.carId.truthy && jvalIn x.carId
          ((st.cars.filter (fun c => c.userId == uid &&
            carIds.contains c.id)).map (fun c => c.id)))).map
        (fun x => x.id)).contains s.id = true := by
      simpa using hsel
    rw [hcontS] at hkeep
    simp at hkeep
  · rintro tn htn ⟨hu, hcar⟩
    have hk := (List.mem_filter.1 htn).2
    rw [hu, hcar, htr, hjv] at hk
    simp at hk
  · rintro m hm ⟨hu, hcar⟩
    have hk := (List.mem_filter.1 hm).2
    rw [hu, hcar, htr, hjv] at hk
    simp at hk
  · rintro S hS hSu hScar cn hcn ⟨hcnU, hcnS⟩
    have hSsel : S.id ∈
        (st.sessions.filter (fun x =>
          x.userId == uid && x.carId.truthy && jvalIn x.carId
            ((st.cars.filter (fun c => c.userId == uid &&
              carIds.contains c.id)).map (fun c => c.id)))).map
          (fun x => x.id) := by
      refine List.mem_map.2 ⟨S, ?_, rfl⟩
      refine List.mem_filter.2 ⟨hS, ?_⟩
      rw [hSu, hScar, htr, hjv]
      simp
    have hjvS : jvalIn (JVal.str S.id)
        ((st.sessions.filter (fun x =>
          x.userId == uid && x.carId.truthy && jvalIn x.carId
            ((st.cars.filter (fun c => c.userId == uid &&
              carIds.contains c.id)).map (fun c => c.id)))).map
          (fun x => x.id)) = true := by
      simpa [jvalIn] using hSsel
    have hkeep := (List.mem_filter.1 hcn).2
    rw [hcnU, hcnS, hjvS] at hkeep
    simp at hkeep

/-- After the track pass, no record of the caller references a selected
owned track, and the track itself is gone. -/
theorem bulkTrackPass_clears (uid : String) (trackIds : List String)
    (st : St) (T : Track) (hT : T ∈ st.tracks) (hTu : T.userId = uid)
    (hTin : T.id ∈ trackIds) (hne : T.id ≠ "") :
    (∀ t ∈ (bulkTrackPass uid trackIds st).tracks,
      ¬(t.userId = uid ∧ t.id = T.id)) ∧
    (∀ s ∈ (bulkTrackPass uid trackIds st).setups,
      ¬(s.userId = uid ∧ s.trackId = JVal.str T.id)) ∧
    (∀ s ∈ (bulkTrackPass uid trackIds st).sessions,
      ¬(s.userId = uid ∧ s.trackId = JVal.str T.id)) ∧
    (∀ tn ∈ (bulkTrackPass uid trackIds st).trackNotes,
      ¬(tn.userId = uid ∧ tn.trackId = JVal.str T.id)) ∧
    (∀ S ∈ st.sessions, S.userId = uid → S.trackId = JVal.str T.id →
      ∀ cn ∈ (bulkTrackPass uid trackIds st).cornerNotes,
        ¬(cn.userId = uid ∧ cn.sessionId = JVal.str S.id)) := by
  have hmemIds : T.id ∈
      (st.tracks.filter (fun t => t.userId == uid && trackIds.contains t.id)).map
        (fun t => t.id) := by
    refine List.mem_map.2 ⟨T, ?_, rfl⟩
    refine List.mem_filter.2 ⟨hT, ?_⟩
    simp [hTu, hTin]
  have hjv : jvalIn (JVal.str T.id)
      ((st.tracks.filter (fun t => t.userId == uid && trackIds.contains t.id)).map
        (fun t => t.id)) = true := by
    simpa [jvalIn] using hmemIds
  have htr : (JVal.str T.id).truthy = true := by simp [JVal.truthy, hne]
  have hcont : ((st.tracks.filter (fun t => t.userId == uid &&
      trackIds.contains t.id)).map (fun t => t.id)).contains T.id = true := by
    simpa using hmemIds
  refine ⟨?_, ?_, ?_, ?_, ?_⟩
  · rintro t ht ⟨hu, hid⟩
    have hk := (List.mem_filter.1 ht).2
    rw [hu, hid] at hk
    rw [hcont] at hk
    simp at hk
  · rintro s hs ⟨hu, hcar⟩
    have hk := (List.mem_filter.1 hs).2
    rw [hu, hcar, htr, hjv] at hk
    simp at hk
  · rintro s hs ⟨hu, hcar⟩
    have hmem : s ∈ st.sessions := (List.mem_filter.1 hs).1
    have hkeep := (List.mem_filter.1 hs).2
    have hsel : s.id ∈
        (st.sessions.filter (fun x =>
          x.userId == uid && x.trackId.truthy && jvalIn x.trackId
            ((st.tracks.filter (fun t => t.userId == uid &&
              trackIds.contains t.id)).map (fun t => t.id)))).map
          (fun x => x.id) := by
      refine List.mem_map.2 ⟨s, ?_, rfl⟩
      refine List.mem_filter.2 ⟨hmem, ?_⟩
      rw [hu, hcar, htr, hjv]
      simp
    have hcontS : ((st.sessions.filter (fun x =>
        x.userId == uid && x.trackId.truthy && jvalIn x.trackId
          ((st.tracks.filter (fun t => t.userId == uid &&
            trackIds.contains t.id)).map (fun t => t.id)))).map
        (fun x => x.id)).contains s.id = true := by
      simpa using hsel
    rw [hcontS] at hkeep
    simp at hkeep
  · rintro tn htn ⟨hu, hcar⟩
    have hk := (List.mem_filter.1 htn).2
    rw [hu, hcar, htr, hjv] at hk
    simp at hk
  · rintro S hS hSu hScar cn hcn ⟨hcnU, hcnS⟩
    have hSsel : S.id ∈
        (st.sessions.filter (fun x =>
          x.userId == uid && x.trackId.truthy && jvalIn x.trackId
            ((st.tracks.filter (fun t => t.userId == uid &&
              trackIds.contains t.id)).map (fun t => t.id)))).map
          (fun x => x.id) := by
      refine List.mem_map.2 ⟨S, ?_, rfl⟩
      refine List.mem_filter.2 ⟨hS, ?_⟩
      rw [hSu, hScar, htr, hjv]
      simp
    have hjvS : jvalIn (JVal.str S.id)
        ((st.sessions.filter (fun x =>
          x.userId == uid && x.trackId.truthy && jvalIn x.trackId
            ((st.tracks.filter (fun t => t.userId == uid &&
              trackIds.contains t.id)).map (fun t => t.id)))).map
          (fun x => x.id)) = true := by
      simpa [jvalIn] using hSsel
    have hkeep := (List.mem_filter.1 hcn).2
    rw [hcnU, hcnS, hjvS] at hkeep
    simp at hkeep

/-- If a session was removed by an id-set session purge, then the same
pass's corner-note purge removed every corner note of the caller tied to
that session: no surviving caller note references the dead session. -/
theorem dead_session_notes_aux (uid : String) (ids : List String)
    (sessions : List Session) (notes : List CornerNote)
    (S : Session) (cn : CornerNote)
    (hS : S ∈ sessions)
    (hS1 : S ∉ sessions.filter (fun s => !(ids.contains s.id)))
    (hcn : cn ∈ notes.filter (fun x =>
      !(x.userId == uid && jvalIn x.sessionId ids))) :
    ¬(cn.userId = uid ∧ cn.sessionId = JVal.str S.id) := by
  rintro ⟨hcnU, hcnS⟩
  rcases hb : ids.contains S.id with _ | _
  · refine hS1 (List.mem_filter.2 ⟨hS, ?_⟩)
    show (!(ids.contains S.id)) = true
    rw [hb]
    rfl
  · have hjv2 : jvalIn (JVal.str S.id) ids = true := hb
    have hkeep := (List.mem_filter.1 hcn).2
    rw [hcnU, hcnS, hjv2] at hkeep
    simp at hkeep

/-- C2 (amended): bulk delete is not the per-entity composition of the
section-4.3 single-entity cascades — it applies a broader cascade of its
own. For each selected owned Car it hard-deletes the caller's Setups,
Sessions — together with the caller's CornerNotes attached to those
deleted Sessions — TrackNotes and MaintenanceTasks referencing that car;
for each selected owned Track it hard-deletes (not nullifies) the
caller's Setups, and also the Sessions (again with their CornerNotes)
and TrackNotes, referencing that track. -/
theorem c2_bulk_delete_amended (uid : String)
    (carIds trackIds : List String) (st st' : St)
    (h : bulkDelete uid carIds trackIds st = .ok st') :
    (∀ C : Car, C ∈ st.cars → C.userId = uid → C.id ∈ carIds →
      C.id ≠ "" →
      (∀ c ∈ st'.cars, ¬(c.userId = uid ∧ c.id = C.id)) ∧
      (∀ s ∈ st'.setups, ¬(s.userId = uid ∧ s.carId = JVal.str C.id)) ∧
      (∀ s ∈ st'.sessions, ¬(s.userId = uid ∧ s.carId = JVal.str C.id)) ∧
      (∀ tn ∈ st'.trackNotes, ¬(tn.userId = uid ∧ tn.carId = JVal.str C.id)) ∧
      (∀ m ∈ st'.maintenance, ¬(m.userId = uid ∧ m.carId = JVal.str C.id)) ∧
      (∀ S ∈ st.sessions, S.userId = uid → S.carId = JVal.str C.id →
        ∀ cn ∈ st'.cornerNotes,
          ¬(cn.userId = uid ∧ cn.sessionId = JVal.str S.id))) ∧
    (∀ T : Track, T ∈ st.tracks → T.userId = uid → T.id ∈ trackIds →
      T.id ≠ "" →
      (∀ t ∈ st'.tracks, ¬(t.userId = uid ∧ t.id = T.id)) ∧
      (∀ s ∈ st'.setups, ¬(s.userId = uid ∧ s.trackId = JVal.str T.id)) ∧
      (∀ s ∈ st'.sessions, ¬(s.userId = uid ∧ s.trackId = JVal.str T.id)) ∧
      (∀ tn ∈ st'.trackNotes, ¬(tn.userId = uid ∧ tn.trackId = JVal.str T.id)) ∧
      (∀ S ∈ st.sessions, S.userId = uid → S.trackId = JVal.str T.id →
        ∀ cn ∈ st'.cornerNotes,
          ¬(cn.userId = uid ∧ cn.sessionId = JVal.str S.id))) := by
  by_cases hval : (carIds.isEmpty && trackIds.isEmpty) = true
  · rw [bulkDelete, if_pos hval] at h
    cases h
  · rw [bulkDelete, if_neg hval] at h
    injection h with h
    constructor
    · intro C hC hCu hCin hne
      have hcne : carIds.isEmpty = false := by
        cases carIds with
        | nil => cases hCin
        | cons a as => rfl
      rw [hcne] at h
      have base := bulkCarPass_clears uid carIds st C hC hCu hCin hne
      rcases htval : trackIds.isEmpty with _ | _
      · rw [htval] at h
        subst h
        simp only [Bool.false_eq_true, if_false]
        refine ⟨?_, ?_, ?_, ?_, ?_, ?_⟩
        · intro c hc
          exact base.1 c hc
        · intro s hs
          exact base.2.1 s ((List.mem_filter.1 hs).1)
        · intro s hs
          exact base.2.2.1 s ((List.mem_filter.1 hs).1)
        · intro tn htn
          exact base.2.2.2.1 tn ((List.mem_filter.1 htn).1)
        · intro m hm
          exact base.2.2.2.2.1 m hm
        · intro S hS hSu hScar cn hcn
          exact base.2.2.2.2.2 S hS hSu hScar cn ((List.mem_filter.1 hcn).1)
      · rw [htval] at h
        subst h
        simp only [Bool.true_eq_false, if_true]
        exact base
    · intro T hT hTu hTin hne
      have htne : trackIds.isEmpty = false := by
        cases trackIds with
        | nil => cases hTin
        | cons a as => rfl
      rw [htne] at h
      rcases hcval : carIds.isEmpty with _ | _
      · rw [hcval] at h
        subst h
        have base := bulkTrackPass_clears uid trackIds
          (bulkCarPass uid carIds st) T hT hTu hTin hne
        refine ⟨?_, ?_, ?_, ?_, ?_⟩
        · intro t ht
          exact base.1 t ht
        · intro s hs
          exact base.2.1 s hs
        · intro s hs
          exact base.2.2.1 s hs
        · intro tn htn
          exact base.2.2.2.1 tn htn
        · intro S hS hSu hStr cn hcn hcnP
          by_cases hS1 : S ∈ (bulkCarPass uid carIds st).sessions
          · exact base.2.2.2.2 S hS1 hSu hStr cn hcn hcnP
          · obtain ⟨hcnU, hcnS⟩ := hcnP
            have hcn1 : cn ∈ (bulkCarPass uid carIds st).cornerNotes :=
              (List.mem_filter.1 hcn).1
            exact dead_session_notes_aux uid _ st.sessions st.cornerNotes
              S cn hS hS1 hcn1 ⟨hcnU, hcnS⟩
      · rw [hcval] at h
        subst h
        exact bulkTrackPass_clears uid trackIds st T hT hTu hTin hne

/-- State fixture for the C2 counterexample: one owned track with one
owned setup referencing it. -/
def stC2 : St :=
  { emptySt with
    tracks := [trackBase]
    setups := [{ setupBase with trackId := JVal.str "t1" }] }

/-- C2 counterexample: bulk-deleting the track hard-deletes the setup,
whereas applying the section-4.3 single-entity Track cascade to the same
selection preserves the setup with `trackId = null` — the two operations
produce different stored collections, refuting the claimed equivalence
(and in particular the claim that the bulk track pass nullifies rather
than deletes). -/
theorem c2_counterexample :
    bulkDelete "u" [] ["t1"] stC2 =
      .ok { stC2 with tracks := [], setups := [] } ∧
    specBulkDelete "u" [] ["t1"] stC2 =
      { stC2 with
        tracks := []
        setups := [{ setupBase with trackId := JVal.null }] } ∧
    resultState stC2 (bulkDelete "u" [] ["t1"] stC2) ≠
      specBulkDelete "u" [] ["t1"] stC2 := by
  exact ⟨by decide, by decide, by decide⟩

/-- State fixture for the C2 witness: a car and a track with referencing
records of the owner, plus one setup referencing an unrelated car. -/
def stC2w : St :=
  { emptySt with
    cars := [carBase]
    tracks := [trackBase]
    setups := [
      { setupBase with carId := JVal.str "c1" },
      { setupBase with id := "s2", carId := JVal.str "c9" }]
    sessions := [{ sessionBase with trackId := JVal.str "t1" }]
    trackNotes := [{ trackNoteBase with carId := JVal.str "c1" }]
    maintenance := [{ maintBase with carId := JVal.str "c1" }] }

/-- Post-state fixture of the C2 witness bulk delete. -/
def stC2wb : St := resultState stC2w (bulkDelete "u" ["c1"] ["t1"] stC2w)

/-- C2 witness: the amended theorem applies at the concrete fixture; the
surviving unrelated setup does not reference the deleted car. -/
theorem c2_witness :
    ¬(({ setupBase with id := "s2", carId := JVal.str "c9" } : Setup).userId =
        "u" ∧
      ({ setupBase with id := "s2", carId := JVal.str "c9" } : Setup).carId =
        JVal.str "c1") :=
  ((c2_bulk_delete_amended "u" ["c1"] ["t1"] stC2w stC2wb (by decide)).1
    carBase (by decide) rfl (by decide) (by decide)).2.1
    { setupBase with id := "s2", carId := JVal.str "c9" } (by decide)

/-- Every key of the car section's id map is an envelope car id. -/
theorem importCarsSection_idMap_keys (uid : String) (fresh : Nat → String)
    (mode : Mode) (envCars : List Car) (st : St) :
    ∀ q ∈ (importCarsSection uid fresh mode envCars st).idMap,
      q.1 ∈ envCars.map Car.id := by
  intro q hq
  unfold importCarsSection at hq
  by_cases he : envCars.isEmpty = true
  · rw [if_pos he] at hq
    simp at hq
  · rw [if_neg he] at hq
    rcases importCarsLoop_idMap_sub envCars _ q hq with h | h
    · simp at h
    · exact h

/-- Every id the car section marks skipped is an envelope car id. -/
theorem importCarsSection_skipped_keys (uid : String) (fresh : Nat → String)
    (mode : Mode) (envCars : List Car) (st : St) :
    ∀ x ∈ (importCarsSection uid fresh mode envCars st).skipped,
      x ∈ envCars.map Car.id := by
  intro x hx
  unfold importCarsSection at hx
  by_cases he : envCars.isEmpty = true
  · rw [if_pos he] at hx
    simp at hx
  · rw [if_neg he] at hx
    rcases importCarsLoop_skipped_sub envCars _ x hx with h | h
    · simp at h
    · exact h

/-- Every key of the track section's id map is an envelope track id. -/
theorem importTracksSection_idMap_keys (uid : String) (fresh : Nat → String)
    (mode : Mode) (envTracks : List Track) (st : St) (k : Nat) :
    ∀ q ∈ (importTracksSection uid fresh mode envTracks st k).idMap,
      q.1 ∈ envTracks.map Track.id := by
  intro q hq
  unfold importTracksSection at hq
  by_cases he : envTracks.isEmpty = true
  · rw [if_pos he] at hq
    simp at hq
  · rw [if_neg he] at hq
    rcases importTracksLoop_idMap_sub envTracks _ q hq with h | h
    · simp at h
    · exact h

/-- Every id the track section marks skipped is an envelope track id. -/
theorem importTracksSection_skipped_keys (uid : String) (fresh : Nat → String)
    (mode : Mode) (envTracks : List Track) (st : St) (k : Nat) :
    ∀ x ∈ (importTracksSection uid fresh mode envTracks st k).skipped,
      x ∈ envTracks.map Track.id := by
  intro x hx
  unfold importTracksSection at hx
  by_cases he : envTracks.isEmpty = true
  · rw [if_pos he] at hx
    simp at hx
  · rw [if_neg he] at hx
    rcases importTracksLoop_skipped_sub envTracks _ x hx with h | h
    · simp at h
    · exact h

/-- C10 (amended): an imported Setup whose non-null `carId` does not
appear among the envelope's Car ids is inserted with that foreign key
kept verbatim — in overwrite mode always (its `trackId` being remapped
through the envelope's track id map as usual), and in preserve mode
provided its `trackId` is null or also absent from the envelope's Track
ids (so the setup cannot be dropped as the dependent of a skipped
matched parent). The inserted record carries the caller's userId, a
fresh id, the unresolved `carId` verbatim, and every other field of the
envelope record unchanged; whenever the `trackId` also resolves to no
envelope Track, it too is kept verbatim. -/
theorem c10_unmapped_fk_amended (uid : String) (fresh : Nat → String)
    (mode : Mode) (env : Envelope) (st st' : St)
    (himp : importOp uid fresh mode env st = .ok st')
    (s : Setup) (hs : s ∈ env.setups.getD [])
    (cid : String) (hcar : s.carId = JVal.str cid)
    (hcid : cid ∉ env.cars.map Car.id)
    (hpres : mode = Mode.preserve →
      ∀ tid, s.trackId = JVal.str tid → tid ∉ env.tracks.map Track.id) :
    ∃ r ∈ st'.setups,
      r.userId = uid ∧
      r.carId = JVal.str cid ∧
      r = { s with id := r.id, userId := uid, trackId := r.trackId } ∧
      ((∀ tid, s.trackId = JVal.str tid → tid ∉ env.tracks.map Track.id) →
        r.trackId = s.trackId) := by
  rcases henv : env.setups with _ | l
  · rw [henv] at hs
    simp at hs
  rw [henv] at hs
  have hlne : l.isEmpty = false := by
    cases l with
    | nil => cases hs
    | cons a as => rfl
  by_cases hv : (env.version == 0) = true
  · rw [importOp, if_pos hv] at himp
    cases himp
  rw [importOp, if_neg hv] at himp
  rw [henv] at himp
  simp only [hlne, Bool.false_eq_true, if_false] at himp
  injection himp with himp
  have hmapC : mapLookup
      (importCarsSection uid fresh mode env.cars st).idMap cid = none := by
    apply mapLookup_eq_none
    intro hmem
    obtain ⟨q, hq, hq1⟩ := List.mem_map.1 hmem
    rw [← hq1] at hcid
    exact hcid (importCarsSection_idMap_keys uid fresh mode env.cars st q hq)
  have hmapT : (∀ tid, s.trackId = JVal.str tid →
        tid ∉ env.tracks.map Track.id) →
      ∀ tid, s.trackId = JVal.str tid →
      mapLookup (importTracksSection uid fresh mode env.tracks st
        (importCarsSection uid fresh mode env.cars st).k).idMap tid = none := by
    intro htr tid hta
    apply mapLookup_eq_none
    intro hmem
    obtain ⟨q, hq, hq1⟩ := List.mem_map.1 hmem
    refine htr tid hta ?_
    rw [← hq1]
    exact importTracksSection_idMap_keys uid fresh mode env.tracks st _ q hq
  have eC : mapOrKeep
      (importCarsSection uid fresh mode env.cars st).idMap s.carId =
      s.carId := by
    apply mapOrKeep_eq_self
    intro x hx
    rw [hcar] at hx
    injection hx with hx
    rw [← hx]
    exact hmapC
  have eT : (∀ tid, s.trackId = JVal.str tid →
        tid ∉ env.tracks.map Track.id) →
      mapOrKeep
      (importTracksSection uid fresh mode env.tracks st
        (importCarsSection uid fresh mode env.cars st).k).idMap s.trackId =
      s.trackId := by
    intro htr
    apply mapOrKeep_eq_self
    intro x hx
    exact hmapT htr x hx
  cases mode with
  | overwrite =>
    obtain ⟨k2, hins⟩ := @insertSetups_mem_of uid fresh
      (importCarsSection uid fresh Mode.overwrite env.cars st).idMap
      (importTracksSection uid fresh Mode.overwrite env.tracks st
        (importCarsSection uid fresh Mode.overwrite env.cars st).k).idMap
      l (importTracksSection uid fresh Mode.overwrite env.tracks st
        (importCarsSection uid fresh Mode.overwrite env.cars st).k).k s hs
    refine ⟨{ s with
        id := fresh k2
        userId := uid
        carId := mapOrKeep
          (importCarsSection uid fresh Mode.overwrite env.cars st).idMap
          s.carId
        trackId := mapOrKeep
          (importTracksSection uid fresh Mode.overwrite env.tracks st
            (importCarsSection uid fresh Mode.overwrite env.cars st).k).idMap
          s.trackId }, ?_, rfl, ?_, ?_, ?_⟩
    · rw [← himp]
      simp only [importSetupsOver]
      exact List.mem_append.2 (Or.inr hins)
    · exact eC.trans hcar
    · simp only [eC]
    · intro htrU
      exact eT htrU
  | preserve =>
    have htr := hpres rfl
    have hskC : cid ∉
        (importCarsSection uid fresh Mode.preserve env.cars st).skipped := by
      intro hmem
      exact hcid
        (importCarsSection_skipped_keys uid fresh Mode.preserve env.cars st
          cid hmem)
    have hjc : jvalIn s.carId
        (importCarsSection uid fresh Mode.preserve env.cars st).skipped =
        false := by
      rw [hcar]
      simpa [jvalIn] using hskC
    have hjt : (s.trackId.truthy && jvalIn s.trackId
        (importTracksSection uid fresh Mode.preserve env.tracks st
          (importCarsSection uid fresh Mode.preserve env.cars st).k).skipped) =
        false := by
      cases hst : s.trackId with
      | str tid =>
        have hnotin : tid ∉ (importTracksSection uid fresh Mode.preserve
            env.tracks st
            (importCarsSection uid fresh Mode.preserve env.cars st).k).skipped :=
          fun hmem => htr tid hst
            (importTracksSection_skipped_keys uid fresh Mode.preserve
              env.tracks st _ tid hmem)
        simp [jvalIn, hnotin]
      | null => rfl
      | num n => simp [jvalIn]
      | quad a b c d => simp [jvalIn]
      | strList xs => simp [jvalIn]
    obtain ⟨k2, hins⟩ := @insertSetupsPres_mem_of uid fresh
      (importCarsSection uid fresh Mode.preserve env.cars st).idMap
      (importTracksSection uid fresh Mode.preserve env.tracks st
        (importCarsSection uid fresh Mode.preserve env.cars st).k).idMap
      (importCarsSection uid fresh Mode.preserve env.cars st).skipped
      (importTracksSection uid fresh Mode.preserve env.tracks st
        (importCarsSection uid fresh Mode.preserve env.cars st).k).skipped
      l (importTracksSection uid fresh Mode.preserve env.tracks st
        (importCarsSection uid fresh Mode.preserve env.cars st).k).k s hs
      (by rw [hjc]; simpa using hjt)
    refine ⟨{ s with
        id := fresh k2
        userId := uid
        carId := mapOrKeep
          (importCarsSection uid fresh Mode.preserve env.cars st).idMap
          s.carId
        trackId := mapOrKeep
          (importTracksSection uid fresh Mode.preserve env.tracks st
            (importCarsSection uid fresh Mode.preserve env.cars st).k).idMap
          s.trackId }, ?_, rfl, ?_, ?_, ?_⟩
    · rw [← himp]
      exact List.mem_append.2 (Or.inr hins)
    · exact eC.trans hcar
    · simp only [eC]
    · intro htrU
      exact eT htrU

/-- Envelope setup fixture for C10: `carId` "ghost" resolves to no
envelope Car, `trackId` names the envelope track `tENV`. -/
def sC10 : Setup :=
  { setupBase with
    id := "sENV"
    carId := JVal.str "ghost"
    trackId := JVal.str "tENV" }

/-- Envelope fixture for the C10 counterexample: no cars, one track that
matches an existing track of the importing user by (name, location), and
the one setup `sC10`. -/
def envC10 : Envelope :=
  { version := 1
    cars := []
    tracks := [{ trackBase with id := "tENV", userId := "x" }]
    setups := some [sC10] }

/-- State fixture for the C10 counterexample: the user already owns a
track with the same name and location as the envelope's. -/
def stC10 : St := { emptySt with tracks := [trackBase] }

/-- C10 counterexample: under preserve mode the envelope track matches
and is skipped, and the setup — although its `carId` "ghost" appears as
no envelope Car id — is dropped as a dependent of the skipped track:
the import returns the state unchanged and no setup carrying the ghost
foreign key is inserted, contradicting the claim that such a record "is
still inserted". -/
theorem c10_counterexample :
    importOp "u" (fun n => "fresh" ++ toString n) Mode.preserve envC10 stC10 =
      .ok stC10 ∧
    envC10.setups = some [sC10] ∧
    sC10.carId = JVal.str "ghost" ∧
    (envC10.cars.map Car.id).contains "ghost" = false ∧
    stC10.setups = [] := by
  exact ⟨by decide, rfl, rfl, by decide, rfl⟩

/-- Envelope setup fixture for the C10 witness: ghost `carId`, null
`trackId`. -/
def sC10w : Setup := { setupBase with id := "sENV", carId := JVal.str "ghost" }

/-- Envelope fixture for the C10 witness: no parents at all, one setup. -/
def envC10w : Envelope := { version := 1, cars := [], tracks := [], setups := some [sC10w] }

/-- Post-state fixture of the C10 witness import. -/
def stC10wb : St :=
  resultState emptySt
    (importOp "u" (fun n => "f" ++ toString n) Mode.overwrite envC10w emptySt)

/-- A JVal matching a singleton id set is the string of that id. -/
theorem jvalIn_singleton {v : JVal} {x : String}
    (h : jvalIn v [x] = true) : v = JVal.str x := by
  cases v <;> simp [jvalIn] at h
  case str s => simp [h]

theorem mapOrKeep_nil (v : JVal) : mapOrKeep [] v = v := by
  cases v <;> simp [mapOrKeep, mapOrKeepRaw, mapLookup]

/-- C8 (confirmed): exporting an owned Car with its Setups and importing
the produced envelope back into the same unmodified account in overwrite
mode leaves the cars collection exactly as it was (the car is matched by
its attribute triple and overwritten with its own values, so no new or
duplicate Car appears), and the number of the user's Setups referencing
that car id afterwards equals the number of Setups in the envelope: the
pre-existing ones are purged and the imported ones are inserted fresh.
The hypotheses say the car's id resolves uniquely to it and the car is
the first of the user's cars carrying its (name, manufacturer, series)
triple — both invariants of real stores with generated unique ids. -/
theorem c8_roundtrip_overwrite (uid : String) (fresh : Nat → String)
    (st st' : St) (C : Car) (env : Envelope)
    (hOne : st.cars.filter (fun c => c.id == C.id) = [C])
    (hUser : C.userId = uid)
    (hTriple : (st.cars.filter (fun c => c.userId == uid)).find? (fun c =>
      c.name == C.name && c.manufacturer == C.manufacturer &&
      c.series == C.series) = some C)
    (hne : C.id ≠ "")
    (hexp : exportOp uid [C.id] [] true false false false st = .ok env)
    (himp : importOp uid fresh Mode.overwrite env st = .ok st') :
    st'.cars = st.cars ∧
    st'.setups.countP
      (fun s => s.userId == uid && s.carId == JVal.str C.id) =
      (env.setups.getD []).length := by
  have hCmem : C ∈ st.cars := by
    have : C ∈ st.cars.filter (fun c => c.id == C.id) := by
      rw [hOne]
      simp
    exact (List.mem_filter.1 this).1
  have hCid : ∀ x ∈ st.cars, (x.id == C.id) = true → x = C := by
    intro x hx hid
    have : x ∈ st.cars.filter (fun c => c.id == C.id) :=
      List.mem_filter.2 ⟨hx, hid⟩
    rw [hOne] at this
    simpa using this
  -- dissect the export response
  rw [exportOp] at hexp
  rw [if_neg (by simp)] at hexp
  injection hexp with hexp
  have hEv : env.version = 1 := by rw [← hexp]
  have hEc : env.cars = [C] := by
    rw [← hexp]
    show (st.cars.filter (fun c => c.userId == uid)).filter
      (fun c => [C.id].contains c.id) = [C]
    rw [List.filter_filter]
    have hcg : ∀ c ∈ st.cars,
        ([C.id].contains c.id && (c.userId == uid)) = (c.id == C.id) := by
      intro c hc
      by_cases hid : (c.id == C.id) = true
      · have hcC := hCid c hc hid
        subst hcC
        simp [hUser, List.contains]
      · have hid2 : (c.id == C.id) = false := by
          simpa using hid
        simp [List.contains, hid2]
        intro h
        rw [h] at hid2
        simp at hid2
    rw [List.filter_congr hcg, hOne]
  have hEt : env.tracks = [] := by
    rw [← hexp]
    show (st.tracks.filter (fun t => t.userId == uid)).filter
      (fun t => ([] : List String).contains t.id) = []
    simp
  have hEs : env.setups =
      some ((st.setups.filter (fun s => s.userId == uid)).filter (fun s =>
        (s.carId.truthy && jvalIn s.carId [C.id]) ||
        (s.trackId.truthy && jvalIn s.trackId []))) := by
    rw [← hexp]
    rfl
  have hEsess : env.sessions = none := by
    rw [← hexp]
    rfl
  have hEcn : env.cornerNotes = none := by
    rw [← hexp]
    rfl
  have hEtn : env.trackNotes = none := by
    rw [← hexp]
    rfl
  have hEm : env.maintenance = none := by
    rw [← hexp]
    rfl
  -- the car section matches the car against itself and rewrites nothing
  have hAccC : importCarsSection uid fresh Mode.overwrite [C] st =
      ImpAcc.mk st.cars [(C.id, C.id)] [] 0 := by
    rw [importCarsSection, if_neg (by simp)]
    simp only [importCarsLoop, hTriple]
    rw [updFirst_eq_self]
    intro x hx hid
    have hxC := hCid x hx hid
    subst hxC
    rfl
  have hAccT : importTracksSection uid fresh Mode.overwrite [] st 0 =
      ImpAcc.mk st.tracks [] [] 0 := rfl
  -- the common predicate equivalence
  have hXeq : ∀ s : Setup,
      ((s.carId.truthy && jvalIn s.carId [C.id]) ||
       (s.trackId.truthy && jvalIn s.trackId [])) =
      (s.carId == JVal.str C.id) := by
    intro s
    rw [jvalIn_nil]
    simp only [Bool.and_false, Bool.or_false]
    cases hc : s.carId with
    | null => simp [JVal.truthy, jvalIn]
    | str x =>
      by_cases hx : x = C.id
      · subst hx
        simp [JVal.truthy, jvalIn, List.contains, hne]
      · simp [JVal.truthy, jvalIn, List.contains, hx]
    | num n => simp [JVal.truthy, jvalIn]
    | quad a b c d => simp [JVal.truthy, jvalIn]
    | strList xs => simp [JVal.truthy, jvalIn]
  have hexpP : (st.setups.filter (fun s => s.userId == uid)).filter (fun s =>
      (s.carId.truthy && jvalIn s.carId [C.id]) ||
      (s.trackId.truthy && jvalIn s.trackId [])) =
      st.setups.filter
        (fun s => s.userId == uid && s.carId == JVal.str C.id) := by
    rw [List.filter_filter]
    refine List.filter_congr ?_
    intro s _
    rw [hXeq s]
    exact Bool.and_comm _ _
  -- unfold the import
  rw [importOp] at himp
  rw [hEv] at himp
  rw [if_neg (by simp)] at himp
  rw [hEc, hEt, hEs, hEsess, hEcn, hEtn, hEm] at himp
  rw [hAccC] at himp
  simp only at himp
  rw [hAccT] at himp
  simp only at himp
  rcases hE : ((st.setups.filter (fun s => s.userId == uid)).filter (fun s =>
      (s.carId.truthy && jvalIn s.carId [C.id]) ||
      (s.trackId.truthy && jvalIn s.trackId []))).isEmpty with _ | _
  · -- nonempty exported setups: purge then insert
    rw [hE] at himp
    simp only [Bool.false_eq_true, if_false, importSetupsOver] at himp
    injection himp with himp
    subst himp
    refine ⟨rfl, ?_⟩
    show ((st.setups.filter _) ++
      (insertSetups uid fresh [(C.id, C.id)] [] _ _).1).countP _ = _
    rw [List.countP_append]
    have hmv1 : mapValues [(C.id, C.id)] = [C.id] := rfl
    have hmv0 : mapValues ([] : IdMap) = [] := rfl
    rw [hmv1, hmv0]
    have hpurge : st.setups.filter (fun s =>
        s.userId == uid && ((s.carId.truthy && jvalIn s.carId [C.id]) ||
          (s.trackId.truthy && jvalIn s.trackId []))) =
        st.setups.filter
          (fun s => s.userId == uid && s.carId == JVal.str C.id) := by
      refine List.filter_congr ?_
      intro s _
      rw [hXeq s]
    rw [hpurge]
    have hflt0 : (st.setups.filter (fun s =>
        !((List.map (fun s => s.id) (st.setups.filter (fun s =>
          s.userId == uid && s.carId == JVal.str C.id))).contains
          s.id))).countP
        (fun s => s.userId == uid && s.carId == JVal.str C.id) = 0 := by
      apply countP_eq_zero_of_none
      intro s hs
      cases hPs : (s.userId == uid && s.carId == JVal.str C.id) with
      | false => rfl
      | true =>
        exfalso
        have hsMem := (List.mem_filter.1 hs).1
        have hsKeep := (List.mem_filter.1 hs).2
        have hsid : s.id ∈ List.map (fun s => s.id)
            (st.setups.filter (fun s =>
              s.userId == uid && s.carId == JVal.str C.id)) :=
          List.mem_map.2 ⟨s, List.mem_filter.2 ⟨hsMem, hPs⟩, rfl⟩
        have hcont : (List.map (fun s => s.id)
            (st.setups.filter (fun s =>
              s.userId == uid && s.carId == JVal.str C.id))).contains
            s.id = true := by
          simpa using hsid
        rw [hcont] at hsKeep
        simp at hsKeep
    rw [hflt0]
    have hmk : mapOrKeep [(C.id, C.id)] (JVal.str C.id) = JVal.str C.id := by
      simp [mapOrKeep, mapOrKeepRaw, mapLookup, JVal.truthy, hne]
    have hins_all : ∀ r ∈ (insertSetups uid fresh [(C.id, C.id)] []
        ((st.setups.filter (fun s => s.userId == uid)).filter (fun s =>
          (s.carId.truthy && jvalIn s.carId [C.id]) ||
          (s.trackId.truthy && jvalIn s.trackId []))) 0).1,
        (r.userId == uid && r.carId == JVal.str C.id) = true := by
      intro r hr
      obtain ⟨s, hsl, k2, rfl⟩ := insertSetups_mem hr
      have hsP := (List.mem_filter.1 hsl).2
      rw [hXeq s] at hsP
      have hscar : s.carId = JVal.str C.id := by simpa using hsP
      simp [hscar, hmk, mapOrKeep_nil]
    rw [countP_eq_len_of_all hins_all, insertSetups_length]
    rw [hEs]
    simp
  · rw [hE] at himp
    simp only [if_true] at himp
    injection himp with himp
    subst himp
    refine ⟨rfl, ?_⟩
    have hnil : (st.setups.filter (fun s => s.userId == uid)).filter (fun s =>
        (s.carId.truthy && jvalIn s.carId [C.id]) ||
        (s.trackId.truthy && jvalIn s.trackId [])) = [] := by
      simpa using hE
    show st.setups.countP
      (fun s => s.userId == uid && s.carId == JVal.str C.id) = _
    rw [hEs]
    simp only [Option.getD_some]
    rw [hnil]
    have hPnil : st.setups.filter
        (fun s => s.userId == uid && s.carId == JVal.str C.id) = [] := by
      rw [← hexpP]
      exact hnil
    apply countP_eq_zero_of_none
    intro s hs
    cases hPs : (s.userId == uid && s.carId == JVal.str C.id) with
    | false => rfl
    | true =>
      exfalso
      have hmem2 : s ∈ st.setups.filter
          (fun s => s.userId == uid && s.carId == JVal.str C.id) :=
        List.mem_filter.2 ⟨hs, hPs⟩
      rw [hPnil] at hmem2
      cases hmem2

/-- State fixture for the C8 witness: one owned car with one setup. -/
def stC8 : St :=
  { emptySt with
    cars := [carBase]
    setups := [{ setupBase with carId := JVal.str "c1" }] }

/-- Envelope fixture: the export of `carBase` with its setups. -/
def envC8 : Envelope :=
  match exportOp "u" ["c1"] [] true false false false stC8 with
  | .ok e => e
  | .error _ => {}

/-- Post-state fixture of the C8 witness round trip. -/
def stC8b : St :=
  resultState stC8
    (importOp "u" (fun n => "f" ++ toString n) Mode.overwrite envC8 stC8)

/-- C8 witness: the round-trip theorem applies at the concrete fixture —
the cars collection is unchanged and the setup count equals the envelope
setup count. -/
theorem c8_witness :
    stC8b.cars = stC8.cars ∧
    stC8b.setups.countP
      (fun s => s.userId == "u" && s.carId == JVal.str carBase.id) =
      (envC8.setups.getD []).length :=
  c8_roundtrip_overwrite "u" (fun n => "f" ++ toString n) stC8 stC8b carBase
    envC8 (by decide) rfl (by decide) (by decide) (by decide) (by decide)

/-- C10 witness: the amended theorem applies at the concrete
overwrite-mode import (the preserve-mode hypothesis holds vacuously), so
the resulting setups collection is nonempty. -/
theorem c10_witness : stC10wb.setups ≠ [] := by
  obtain ⟨r, hr, _⟩ := c10_unmapped_fk_amended "u" (fun n => "f" ++ toString n)
    Mode.overwrite envC10w emptySt stC10wb (by decide) sC10w (by decide)
    "ghost" rfl (by decide)
    (by intro hm; cases hm)
  intro h
  rw [h] at hr
  cases hr

end RaceLog
